import Mathlib

set_option maxRecDepth 16384

/-!
Shallow embedding of the Dideban monitoring engine (Go) in Lean 4.

Each definition mirrors one Go function or type of the repository:
  - `internal/storage/models.go`     : entity records
  - `internal/storage/validators.go` : pure validators (the first, timestamp-free
    variant, the one the specification adopts)
  - `internal/checks/http.go`        : BaseChecker helpers and the HTTP probe's
    response validation
  - `internal/checks/ping.go`        : ping output mapping
  - `internal/core/tasks.go`         : agent liveness loop
  - the scheduler and engine files   : worker-pool backpressure and context
    lineage, modelled as explicit transition systems

Go strings are modelled as Lean `String`s; `len` is modelled by UTF-8 byte
size (`String.utf8ByteSize`), matching Go's `len` on well-formed strings.
Go `time.Time` is modelled as an `Int` count of nanoseconds; `time.Duration`
arithmetic is integer arithmetic on nanoseconds.  Go `float64` fields carry
exact rational values (`Rat`); every float operation the embedded code
performs (comparison, truncation to `int`) is exact on the inputs used.
-/

namespace Dideban

/-- Go `len(s)` on a string counts UTF-8 bytes. -/
def goLen (s : String) : Nat := s.utf8ByteSize

/-! ### String helpers from `internal/checks/http.go` (BaseChecker section)

`indexOf` and `contains` are the hand-rolled substring helpers used by the
error classifier.  They slice at byte indices in Go; since both the haystacks
and the needles are well-formed UTF-8 and UTF-8 is self-synchronising, the
character-level model below matches the byte-level original. -/

/-- `indexOf(s, substr)` from http.go: first index of `sub` in `s`, else `-1`. -/
def indexOf : List Char → List Char → Int
  | s, sub =>
    if sub.isPrefixOf s then 0
    else match s with
      | [] => -1
      | _ :: t =>
        let r := indexOf t sub
        if r < 0 then -1 else r + 1

/-- `contains(s, substr)` from http.go: substring test built from prefix,
suffix and `indexOf` checks, guarded by length comparisons. -/
def goContains (s sub : List Char) : Bool :=
  decide (sub.length ≤ s.length) &&
    (s == sub ||
      (decide (sub.length < s.length) &&
        (sub.isPrefixOf s || sub.isSuffixOf s || indexOf s sub ≥ 0)))

/-- `contains` lifted to `String`. -/
def strContains (s sub : String) : Bool :=
  goContains s.toList sub.toList

/-! ### Constants from `internal/storage/models.go` -/

def CheckTypeHTTP : String := "http"
def CheckTypePing : String := "ping"

def CheckStatusUp : String := "up"
def CheckStatusDown : String := "down"
def CheckStatusError : String := "error"
def CheckStatusTimeout : String := "timeout"

def AlertTypeTelegram : String := "telegram"
def AlertTypeBale : String := "bale"
def AlertTypeEmail : String := "email"
def AlertTypeWebhook : String := "webhook"

def AlertStatusSent : String := "sent"
def AlertStatusFailed : String := "failed"
def AlertStatusPending : String := "pending"

def AgentStatusOnline : String := "online"
def AgentStatusOffline : String := "offline"

/-! ### Entity records from `internal/storage/models.go`

Timestamps (`CreatedAt`/`UpdatedAt`) are GORM-managed and never read by the
validators embedded here, so they are omitted from the records. -/

/-- `storage.Check` (the field `Type` is spelled `ctype` here). -/
structure Check where
  id : Int
  enabled : Bool
  name : String
  ctype : String
  config : String
  target : String
  intervalSeconds : Int
  timeoutSeconds : Int
deriving Repr, DecidableEq

/-- `storage.CheckHistory`. -/
structure CheckHistory where
  checkID : Int
  status : String
  responseTimeMs : Option Int
  statusCode : Option Int
  errorMessage : Option String
  checkedAt : Int
deriving Repr, DecidableEq

/-- `storage.Agent` (`LastSeenAt` is nullable). -/
structure Agent where
  id : Int
  name : String
  enabled : Bool
  intervalSeconds : Int
  authToken : String
  status : String
  lastSeenAt : Option Int
deriving Repr, DecidableEq

/-- `storage.AgentHistory`; `float64` metric fields carry exact rationals. -/
structure AgentHistory where
  agentID : Int
  isOffline : Bool
  collectDurationMs : Int
  cpuLoad1 : Rat
  cpuLoad5 : Rat
  cpuLoad15 : Rat
  cpuUsagePercent : Rat
  memoryTotalMB : Int
  memoryUsedMB : Int
  memoryAvailableMB : Int
  memoryUsagePercent : Rat
  diskTotalGB : Int
  diskUsedGB : Int
  diskUsagePercent : Rat
  collectedAt : Int
deriving Repr, DecidableEq

/-- `storage.Alert` (`CheckID`, `AgentID`, `ConditionValue` are nullable). -/
structure Alert where
  id : Int
  checkID : Option Int
  agentID : Option Int
  atype : String
  config : String
  conditionType : String
  conditionValue : Option Rat
  enabled : Bool
deriving Repr, DecidableEq

/-- `storage.AlertHistory`. -/
structure AlertHistory where
  alertID : Int
  checkResultID : Option Int
  agentMetricID : Option Int
  title : String
  message : String
  status : String
  sentAt : Int
deriving Repr, DecidableEq

/-! ### BaseChecker from `internal/checks/http.go` -/

/-- `CreateErrorResult`: standardized error observation.  `now` stands for
`time.Now()` at the moment the result is built. -/
def CreateErrorResult (checkID : Int) (status : String) (errMsg : String)
    (responseTime : Int) (statusCode : Option Int) (now : Int) : CheckHistory :=
  { checkID := checkID
    status := status
    responseTimeMs := some responseTime
    statusCode := statusCode
    errorMessage := some errMsg
    checkedAt := now }

/-- `CreateSuccessResult`: standardized success observation with `status=up`. -/
def CreateSuccessResult (checkID : Int) (responseTime : Int)
    (statusCode : Option Int) (message : String) (now : Int) : CheckHistory :=
  { checkID := checkID
    status := CheckStatusUp
    responseTimeMs := some responseTime
    statusCode := statusCode
    errorMessage := some message
    checkedAt := now }

/-- `DetermineErrorStatus`: substring-driven classification of an error
string into `timeout`, `down` or `error`. -/
def DetermineErrorStatus (errStr : String) : String :=
  if strContains errStr "timeout" || strContains errStr "deadline exceeded" then
    CheckStatusTimeout
  else if strContains errStr "connection refused" ||
      strContains errStr "no route to host" ||
      strContains errStr "host unreachable" ||
      strContains errStr "100% packet loss" then
    CheckStatusDown
  else
    CheckStatusError

/-! ### HTTP probe response validation from `internal/checks/http.go` -/

/-- Association list standing in for a Go `map[string]string`, kept sorted by
key (observable behaviour of Go maps: keyed lookup and insert; `json.Marshal`
emits entries sorted by key). -/
abbrev Headers : Type := List (String × String)

/-- `checks.HTTPConfig`: the probe-side HTTP configuration record. -/
structure HTTPConfig where
  method : String
  headers : Headers
  body : String
  expectedStatus : Int
  expectedContent : String
  followRedirects : Bool
  verifySSL : Bool
  timeoutSeconds : Int
deriving Repr, DecidableEq

/-- `validateResponse`: compares the actual status code with the expected
one, then (when `expected_content` is set) looks for the substring in the
bytes obtained from the single 1 KiB body read (`bodyRead`).  Returns the
observation the probe hands back. -/
def validateResponse (checkID : Int) (respStatusCode : Int) (bodyRead : String)
    (cfg : HTTPConfig) (responseTime : Int) (now : Int) : CheckHistory :=
  if respStatusCode ≠ cfg.expectedStatus then
    let msg := "unexpected status code: got " ++ toString respStatusCode ++
      ", expected " ++ toString cfg.expectedStatus
    CreateErrorResult checkID (DetermineErrorStatus msg) msg responseTime
      (some respStatusCode) now
  else if cfg.expectedContent ≠ "" && !(strContains bodyRead cfg.expectedContent) then
    let msg := "expected content not found: " ++ cfg.expectedContent
    CreateErrorResult checkID (DetermineErrorStatus msg) msg responseTime
      (some respStatusCode) now
  else
    CreateSuccessResult checkID responseTime (some respStatusCode) "" now

/-- The `Check` error path of `HTTPChecker.Check` when `client.Do` fails
(DNS failure, refused connection, timeout, ...): the raw error text is
classified, and the observation message wraps it with `request failed: `. -/
def httpRequestFailedObservation (checkID : Int) (clientErr : String)
    (responseTime : Int) (now : Int) : CheckHistory :=
  CreateErrorResult checkID (DetermineErrorStatus clientErr)
    ("request failed: " ++ clientErr) responseTime none now

/-! ### Ping result mapping from `internal/checks/ping.go` -/

/-- Go's `int(f)` conversion on a `float64`: truncation toward zero. -/
def goTruncToInt (q : Rat) : Int :=
  if 0 ≤ q then ⌊q⌋ else ⌈q⌉

/-- One-decimal rendering of the packet-loss percentage, standing for Go's
`fmt.Sprintf("%.1f", f)` on the exact values the parser produces. -/
def formatPercent1 (q : Rat) : String :=
  let tenths : Int := ⌊q * 10 + 1/2⌋
  toString (tenths / 10) ++ "." ++ toString (tenths % 10)

/-- `createPingResult`: maps `(received, packetLoss, avgRTT)` parsed from the
ping output to an observation.  `received == 0` → down with "100% packet
loss"; `packetLoss > 50` → down; otherwise up.  The response time is Go's
`int(avgRTT)` — truncation toward zero, not rounding. -/
def createPingResult (received : Int) (packetLoss avgRTT : Rat) (now : Int) :
    CheckHistory :=
  let responseTimeMs : Int := goTruncToInt avgRTT
  if received = 0 then
    CreateErrorResult 0 CheckStatusDown "100% packet loss" responseTimeMs none now
  else if packetLoss > 50 then
    CreateErrorResult 0 CheckStatusDown (formatPercent1 packetLoss ++ "% packet loss")
      responseTimeMs none now
  else
    CreateSuccessResult 0 responseTimeMs none
      (formatPercent1 packetLoss ++ "% packet loss") now

/-! ### Agent liveness loop from `internal/core/tasks.go` -/

/-- Nanoseconds in one second (`time.Second`). -/
def nsPerSecond : Int := 1000000000

/-- The grace period of `checkOfflineAgents`: 30 seconds. -/
def gracePeriod : Int := 30 * nsPerSecond

/-- The offline test of `checkOfflineAgents`: offline unless `last_seen_at`
is set and `now - last_seen_at ≤ interval_seconds + grace`. -/
def agentIsOffline (now : Int) (a : Agent) : Bool :=
  match a.lastSeenAt with
  | none => true
  | some lastSeen =>
    let maxAllowedDelay := a.intervalSeconds * nsPerSecond + gracePeriod
    !(decide (now - lastSeen ≤ maxAllowedDelay))

/-- The synthetic offline `AgentHistory` record built by
`checkOfflineAgents`: `is_offline=true`, all metrics zero, `collected_at=now`. -/
def offlineAgentHistory (now : Int) (a : Agent) : AgentHistory :=
  { agentID := a.id
    isOffline := true
    collectDurationMs := 0
    cpuLoad1 := 0
    cpuLoad5 := 0
    cpuLoad15 := 0
    cpuUsagePercent := 0
    memoryTotalMB := 0
    memoryUsedMB := 0
    memoryAvailableMB := 0
    memoryUsagePercent := 0
    diskTotalGB := 0
    diskUsedGB := 0
    diskUsagePercent := 0
    collectedAt := now }

/-- The per-agent body of `checkOfflineAgents` on one 30-second tick:
returns the (possibly status-updated) agent and the list of synthetic
history rows appended for it on this tick. -/
def checkOfflineAgentStep (now : Int) (a : Agent) : Agent × List AgentHistory :=
  if agentIsOffline now a then
    let a' := if a.status ≠ AgentStatusOffline
      then { a with status := AgentStatusOffline } else a
    (a', [offlineAgentHistory now a])
  else
    (a, [])

/-- `checkOfflineAgents` over the list of enabled agents: every enabled agent
goes through `checkOfflineAgentStep`; the appended history rows are
concatenated in agent order. -/
def checkOfflineAgents (now : Int) (agents : List Agent) :
    List Agent × List AgentHistory :=
  (agents.map (fun a => (checkOfflineAgentStep now a).1),
   agents.flatMap (fun a => (checkOfflineAgentStep now a).2))

/-- `shouldTriggerAlert` from tasks.go: a check alert fires iff its
condition type names the observation's status. -/
def shouldTriggerAlert (a : Alert) (result : CheckHistory) : Bool :=
  if a.conditionType = "status_down" then result.status == CheckStatusDown
  else if a.conditionType = "status_timeout" then result.status == CheckStatusTimeout
  else if a.conditionType = "status_error" then result.status == CheckStatusError
  else false

/-! ### Scheduler worker pool (scheduler file, `executeJobTask`)

The scheduler's concurrency skeleton as a transition system.  The Go state
is the buffered channel `workers` (primed by `Start` with `worker_count`
tokens) plus the set of in-flight task goroutines; there is no queue of
pending firings anywhere in the scheduler.  `executeJobTask` performs a
non-blocking receive on `workers`: on success the task runs on a goroutine
and the token is returned when it finishes; on failure the firing is logged
and dropped (`skipped` counts those warnings). -/

/-- Scheduler pool state: free worker tokens, in-flight tasks, and the
count of firings skipped for lack of a worker. -/
structure SchedState where
  available : Nat
  running : Nat
  skipped : Nat
deriving Repr, DecidableEq

/-- Events the pool reacts to: a job timer firing, or a task finishing
(returning its token in `executeJobTask`'s deferred send). -/
inductive SchedEvent where
  | fire
  | finish
deriving Repr, DecidableEq

/-- Pool state right after `Scheduler.Start`: `worker_count` tokens free,
nothing running. -/
def schedInit (workerCount : Nat) : SchedState :=
  { available := workerCount, running := 0, skipped := 0 }

/-- One step of the pool.  `fire` is `executeJobTask`: non-blocking token
acquire, task started on success, firing skipped (warning only) on
exhaustion.  `finish` is the deferred token return of a completed task. -/
def schedStep (s : SchedState) : SchedEvent → SchedState
  | .fire =>
    if 0 < s.available then
      { s with available := s.available - 1, running := s.running + 1 }
    else
      { s with skipped := s.skipped + 1 }
  | .finish =>
    if 0 < s.running then
      { s with running := s.running - 1, available := s.available + 1 }
    else
      s

/-- The pool state after a trace of events from the freshly started pool. -/
def schedRun (workerCount : Nat) (evs : List SchedEvent) : SchedState :=
  evs.foldl schedStep (schedInit workerCount)

/-! ### Context lineage (scheduler + engine files)

A model of the `context.Context` lineage the code actually builds.  A
context is its chain of ancestors; cancelling a set of contexts cancels
exactly their descendants (including themselves).  -/

/-- A Go context is identified with its parent chain: the head is the
context's own node, the tail its parent's chain.  Every `WithCancel` /
`WithTimeout` call site allocates a fresh node, so two contexts built at
different sites are distinct even when their shapes agree. -/
def CtxChain : Type := List Nat

instance : DecidableEq CtxChain := by unfold CtxChain; infer_instance

/-- `context.Background()`. -/
def backgroundCtx : CtxChain := [0]

/-- `c.isDescendantOf a`: `a` is `c` itself or lies on `c`'s parent chain. -/
def ctxIsDescendantOf (c a : CtxChain) : Bool :=
  (a : List Nat).isSuffixOf c

/-- Whether `c` is cancelled once every context in `cancelled` has had its
cancel function called: cancellation propagates to descendants only. -/
def ctxIsCancelled (c : CtxChain) (cancelled : List CtxChain) : Bool :=
  cancelled.any (fun a => ctxIsDescendantOf c a)

/-- `Engine.Start`: `engineCtx, cancel := context.WithCancel(ctx)` (node 1). -/
def engineStartCtx (ctx : CtxChain) : CtxChain := 1 :: ctx

/-- `Scheduler.Start`: `_, cancel := context.WithCancel(ctx)` (node 2) —
the derived context is built and immediately discarded; only its cancel
function is kept in `s.cancel`. -/
def schedulerStartCtx (engineCtx : CtxChain) : CtxChain := 2 :: engineCtx

/-- `startJobUnsafe`: `jobCtx, cancel := context.WithCancel(context.Background())`
(node 3).  The job context is rooted at `Background`, not at the scheduler
context. -/
def startJobCtx : CtxChain := 3 :: backgroundCtx

/-- `executeCheck`: `checkCtx, cancel := context.WithTimeout(ctx, timeout)`
(node 4), where `ctx` is the context the scheduler hands the task — `runJob`
passes the job context through `executeJobTask` and `executeWithRetry` to
`job.Task`. -/
def executeCheckCtx (taskParent : CtxChain) : CtxChain := 4 :: taskParent

/-! ### JSON-free validators from `internal/storage/validators.go` -/

/-- `IsValidCheckType`. -/
def IsValidCheckType (t : String) : Bool :=
  t == CheckTypeHTTP || t == CheckTypePing

/-- `IsValidCheckStatus`. -/
def IsValidCheckStatus (status : String) : Bool :=
  status == CheckStatusUp || status == CheckStatusDown ||
  status == CheckStatusError || status == CheckStatusTimeout

/-- `IsValidAlertType`. -/
def IsValidAlertType (alertType : String) : Bool :=
  alertType == AlertTypeTelegram || alertType == AlertTypeBale ||
  alertType == AlertTypeEmail || alertType == AlertTypeWebhook

/-- `IsValidAlertStatus`. -/
def IsValidAlertStatus (status : String) : Bool :=
  status == AlertStatusSent || status == AlertStatusFailed ||
  status == AlertStatusPending

/-- `IsValidAgentStatus`. -/
def IsValidAgentStatus (status : String) : Bool :=
  status == AgentStatusOnline || status == AgentStatusOffline

/-- `validateAlertConditionType`: check alerts take the three `status_*`
conditions, agent alerts the three `*_usage_high` thresholds plus
`agent_offline`. -/
def validateAlertConditionType (conditionType : String) (isCheckAlert : Bool) :
    Except String Unit :=
  let checkConditions := ["status_down", "status_timeout", "status_error"]
  let agentConditions :=
    ["cpu_usage_high", "memory_usage_high", "disk_usage_high", "agent_offline"]
  if isCheckAlert then
    if checkConditions.contains conditionType then .ok ()
    else .error ("invalid condition type for check alert: " ++ conditionType)
  else
    if agentConditions.contains conditionType then .ok ()
    else .error ("invalid condition type for agent alert: " ++ conditionType)

/-- `needsConditionValue`: only the three percentage thresholds require a
`condition_value`. -/
def needsConditionValue (conditionType : String) : Bool :=
  ["cpu_usage_high", "memory_usage_high", "disk_usage_high"].contains conditionType

/-- `ValidateAgentHistory` (first, timestamp-free variant): rejects a zero
`agent_id` and a negative collect duration; an offline record must have a
zero collect duration and gets every metric field zeroed in place; an
online record has all metric ranges enforced.  The returned record is the
state of the (mutable) argument after a successful call. -/
def ValidateAgentHistory (history : AgentHistory) : Except String AgentHistory :=
  if history.agentID = 0 then
    .error "agent ID cannot be empty"
  else if history.collectDurationMs < 0 then
    .error "collect duration cannot be negative"
  else if history.isOffline then
    if history.collectDurationMs ≠ 0 then
      .error "offline history must have zero collect duration"
    else
      .ok { history with
        cpuLoad1 := 0, cpuLoad5 := 0, cpuLoad15 := 0, cpuUsagePercent := 0
        memoryTotalMB := 0, memoryUsedMB := 0, memoryAvailableMB := 0
        memoryUsagePercent := 0
        diskTotalGB := 0, diskUsedGB := 0, diskUsagePercent := 0 }
  else if history.cpuLoad1 < 0 || history.cpuLoad5 < 0 || history.cpuLoad15 < 0 then
    .error "CPU load values cannot be negative"
  else if history.cpuUsagePercent < 0 || history.cpuUsagePercent > 100 then
    .error "CPU usage percent must be between 0 and 100"
  else if history.memoryTotalMB ≤ 0 then
    .error "memory total must be positive"
  else if history.memoryUsedMB < 0 || history.memoryAvailableMB < 0 then
    .error "memory values cannot be negative"
  else if history.memoryUsagePercent < 0 || history.memoryUsagePercent > 100 then
    .error "memory usage percent must be between 0 and 100"
  else if history.diskTotalGB ≤ 0 then
    .error "disk total must be positive"
  else if history.diskUsedGB < 0 then
    .error "disk used cannot be negative"
  else if history.diskUsagePercent < 0 || history.diskUsagePercent > 100 then
    .error "disk usage percent must be between 0 and 100"
  else
    .ok history

/-- `ValidateCheckHistory` (first variant). -/
def ValidateCheckHistory (history : CheckHistory) : Except String Unit :=
  if history.checkID = 0 then
    .error "check ID cannot be empty"
  else if !IsValidCheckStatus history.status then
    .error ("invalid check status: " ++ history.status)
  else if (match history.responseTimeMs with
      | some rt => decide (rt < 0)
      | none => false) then
    .error "response time cannot be negative"
  else if (match history.statusCode with
      | some sc => decide (sc < 100) || decide (sc > 599)
      | none => false) then
    .error "invalid HTTP status code"
  else if (match history.errorMessage with
      | some msg => decide (goLen msg > 1000)
      | none => false) then
    .error "error message too long (max 1000 chars)"
  else
    .ok ()

/-! ### JSON (model of Go `encoding/json` as used by the validators)

The validators parse user-supplied config text with `json.Unmarshal` and
re-serialise with `json.Marshal`.  The model below follows the Go decoder:
one JSON value plus surrounding whitespace, strings with the JSON escapes
(`\uXXXX` incl. surrogate pairs; lone surrogates become U+FFFD), numbers
kept as literals (an `int` field accepts only plain integer literals, as
`strconv.ParseInt` does), objects decoded field-by-field in input order so
a duplicate key's last occurrence wins.  The encoder escapes `"`BACKSLASH,
control characters, and HTML-escapes `<`, `>`, `&`, U+2028, U+2029, exactly
as `json.Marshal` does, and emits map entries sorted by key. -/

/-- A decoded JSON value; numbers keep their source literal. -/
inductive JValue where
  | jnull
  | jbool (b : Bool)
  | jnum (lit : String)
  | jstr (s : String)
  | jarr (elems : List JValue)
  | jobj (fields : List (String × JValue))
deriving Repr, BEq

/-- JSON insignificant whitespace. -/
def isJsonWs (c : Char) : Bool :=
  c = ' ' || c = '\t' || c = '\n' || c = '\r'

/-- Skip insignificant whitespace. -/
def skipWs : List Char → List Char
  | [] => []
  | c :: rest => if isJsonWs c then skipWs rest else c :: rest

/-- Hex digit value (`0`-`9`, `a`-`f`, `A`-`F` by code point, as the Go
decoder's `getu4` accepts). -/
def hexVal (c : Char) : Option Nat :=
  let n := c.toNat
  if 48 ≤ n ∧ n ≤ 57 then some (n - 48)
  else if 97 ≤ n ∧ n ≤ 102 then some (n - 97 + 10)
  else if 65 ≤ n ∧ n ≤ 70 then some (n - 65 + 10)
  else none

/-- Value of a 4-digit hex escape. -/
def hex4Val (h1 h2 h3 h4 : Char) : Option Nat := do
  let a ← hexVal h1
  let b ← hexVal h2
  let c ← hexVal h3
  let d ← hexVal h4
  pure (a * 4096 + b * 256 + c * 16 + d)

/-- Unicode scalar from a (possibly surrogate) code unit, lone surrogates
replaced by U+FFFD as the Go decoder does. -/
def scalarOfUnit (n : Nat) : Char :=
  if 0xD800 ≤ n && n ≤ 0xDFFF then Char.ofNat 0xFFFD else Char.ofNat n

/-- Single-character short escapes of the JSON grammar. -/
def unescapeShort (c : Char) : Option Char :=
  if c = '"' then some '"'
  else if c = '\\' then some '\\'
  else if c = '/' then some '/'
  else if c = 'b' then some (Char.ofNat 8)
  else if c = 'f' then some (Char.ofNat 12)
  else if c = 'n' then some '\n'
  else if c = 'r' then some '\r'
  else if c = 't' then some '\t'
  else none

/-- One step of the JSON string decoder (after the opening quote): either
the closing quote (`none` character), or one decoded character, together
with the strictly shorter remaining input.  A `\uXXXX` high surrogate
pairs with an immediately following low surrogate; an unpaired surrogate
decodes to U+FFFD (Go behaviour).  Raw control characters are rejected,
as the Go scanner does. -/
def parseOneChar : (cs : List Char) →
    Option (Option Char × { r : List Char // r.length < cs.length })
  | [] => none
  | c :: rest =>
    if c = '"' then some (none, ⟨rest, by simp⟩)
    else if c = '\\' then
      match rest with
      | 'u' :: h1 :: h2 :: h3 :: h4 :: rest3 =>
        (match hex4Val h1 h2 h3 h4 with
         | none => none
         | some n =>
           if 0xD800 ≤ n && n ≤ 0xDBFF then
             -- high surrogate: pair with an immediately following low one
             match rest3 with
             | '\\' :: 'u' :: g1 :: g2 :: g3 :: g4 :: rest4 =>
               (match hex4Val g1 g2 g3 g4 with
                | none => none
                | some m =>
                  if 0xDC00 ≤ m && m ≤ 0xDFFF then
                    let cp := 0x10000 + (n - 0xD800) * 0x400 + (m - 0xDC00)
                    some (some (Char.ofNat cp), ⟨rest4, by simp; omega⟩)
                  else
                    some (some (Char.ofNat 0xFFFD),
                      ⟨'\\' :: 'u' :: g1 :: g2 :: g3 :: g4 :: rest4, by simp⟩))
             | r3 => some (some (Char.ofNat 0xFFFD), ⟨r3, by simp; omega⟩)
           else
             some (some (scalarOfUnit n), ⟨rest3, by simp; omega⟩))
      | e :: rest2 =>
        (match unescapeShort e with
         | none => none
         | some d => some (some d, ⟨rest2, by simp; omega⟩))
      | [] => none
    else if c.toNat < 0x20 then none
    else some (some c, ⟨rest, by simp⟩)

/-- Parse the body of a JSON string literal (after the opening quote),
returning the decoded characters and the input after the closing quote. -/
def parseStrBody (cs : List Char) : Option (List Char × List Char) :=
  match parseOneChar cs with
  | none => none
  | some (none, ⟨r, _⟩) => some ([], r)
  | some (some d, ⟨r, _⟩) => (parseStrBody r).map fun (s, r2) => (d :: s, r2)
termination_by cs.length
decreasing_by exact ‹_›

/-- Characters that may occur in a JSON number literal. -/
def isNumChar (c : Char) : Bool :=
  ('0' ≤ c && c ≤ '9') || c = '-' || c = '+' || c = '.' || c = 'e' || c = 'E'

/-- Digit test. -/
def isDigitChar (c : Char) : Bool := '0' ≤ c && c ≤ '9'

/-- The JSON number grammar: `-? int frac? exp?` with `int = 0 | [1-9][0-9]*`. -/
def jsonNumOk (cs : List Char) : Bool :=
  let afterMinus : List Char := match cs with
    | [] => []
    | c :: t => if c = '-' then t else c :: t
  let intStep : Bool × List Char := match afterMinus with
    | [] => (false, [])
    | c :: t =>
      if c = '0' then (true, t)
      else if isDigitChar c then (true, t.dropWhile isDigitChar)
      else (false, c :: t)
  if intStep.1 = false then false
  else
    let fracStep : Bool × List Char := match intStep.2 with
      | [] => (true, [])
      | c :: t =>
        if c = '.' then
          match t with
          | [] => (false, [])
          | d :: _ => (isDigitChar d, t.dropWhile isDigitChar)
        else (true, c :: t)
    if fracStep.1 = false then false
    else
      let expStep : Bool × List Char := match fracStep.2 with
        | [] => (true, [])
        | c :: t =>
          if c = 'e' || c = 'E' then
            let t2 : List Char := match t with
              | [] => []
              | d :: u => if d = '+' || d = '-' then u else d :: u
            match t2 with
            | [] => (false, [])
            | d :: _ => (isDigitChar d, t2.dropWhile isDigitChar)
          else (true, c :: t)
      expStep.1 && expStep.2.isEmpty

/-- Parse a JSON number literal: maximal span of number characters, checked
against the grammar. -/
def parseNum (cs : List Char) : Option (String × List Char) :=
  let lit := cs.takeWhile isNumChar
  if lit ≠ [] && jsonNumOk lit then some (lit.asString, cs.drop lit.length)
  else none

mutual

/-- Parse one JSON value (leading whitespace allowed).  `fuel` bounds the
recursion; `jsonUnmarshalValue` supplies more fuel than any input can use.
The head character dispatches exactly as the Go scanner does: a literal
(`null`/`true`/`false`), a string, an object, an array, or a number. -/
def parseVal : Nat → List Char → Option (JValue × List Char)
  | 0, _ => none
  | Nat.succ fuel, cs =>
    match skipWs cs with
    | [] => none
    | c :: rest =>
      if c = 'n' then
        if ['u', 'l', 'l'].isPrefixOf rest then some (.jnull, rest.drop 3)
        else none
      else if c = 't' then
        if ['r', 'u', 'e'].isPrefixOf rest then some (.jbool true, rest.drop 3)
        else none
      else if c = 'f' then
        if ['a', 'l', 's', 'e'].isPrefixOf rest then
          some (.jbool false, rest.drop 4)
        else none
      else if c = '"' then
        (parseStrBody rest).map fun (s, r) => (.jstr s.asString, r)
      else if c = '{' then
        match skipWs rest with
        | '}' :: r2 => some (.jobj [], r2)
        | _ => parseObjFields fuel rest []
      else if c = '[' then
        match skipWs rest with
        | ']' :: r2 => some (.jarr [], r2)
        | _ => parseArrElems fuel rest []
      else
        (parseNum (c :: rest)).map fun (lit, r) => (.jnum lit, r)

/-- Parse the fields of a JSON object after the opening brace (non-empty
object), accumulating fields in input order. -/
def parseObjFields : Nat → List Char → List (String × JValue) →
    Option (JValue × List Char)
  | 0, _, _ => none
  | Nat.succ fuel, cs, acc =>
    match skipWs cs with
    | [] => none
    | c :: rest =>
      if c = '"' then
        match parseStrBody rest with
        | none => none
        | some (key, r1) =>
          (match skipWs r1 with
           | [] => none
           | c2 :: r2 =>
             if c2 = ':' then
               match parseVal fuel r2 with
               | none => none
               | some (v, r3) =>
                 (match skipWs r3 with
                  | [] => none
                  | c3 :: r4 =>
                    if c3 = ',' then
                      parseObjFields fuel r4 (acc ++ [(key.asString, v)])
                    else if c3 = '}' then
                      some (.jobj (acc ++ [(key.asString, v)]), r4)
                    else none)
             else none)
      else none

/-- Parse the elements of a JSON array after the opening bracket (non-empty
array). -/
def parseArrElems : Nat → List Char → List JValue → Option (JValue × List Char)
  | 0, _, _ => none
  | Nat.succ fuel, cs, acc =>
    match parseVal fuel cs with
    | none => none
    | some (v, r1) =>
      (match skipWs r1 with
       | [] => none
       | c2 :: r2 =>
         if c2 = ',' then parseArrElems fuel r2 (acc ++ [v])
         else if c2 = ']' then some (.jarr (acc ++ [v]), r2)
         else none)

end

/-- `json.Unmarshal`'s outer shape: one value, surrounded only by
whitespace. -/
def jsonUnmarshalValue (s : String) : Option JValue :=
  match parseVal (s.length + 1) s.toList with
  | some (v, rest) => if skipWs rest = [] then some v else none
  | none => none

/-- Decoding a JSON number literal into a Go `int` field
(`strconv.ParseInt`): an optional minus sign followed by digits only. -/
def jnumToInt (lit : String) : Option Int :=
  let cs := lit.toList
  let (neg, ds) : Bool × List Char := match cs with
    | [] => (false, [])
    | c :: t => if c = '-' then (true, t) else (false, c :: t)
  if ds ≠ [] && ds.all isDigitChar then
    let n : Nat := ds.foldl (fun acc c => acc * 10 + (c.toNat - '0'.toNat)) 0
    some (if neg then -(n : Int) else (n : Int))
  else none

/-! #### JSON encoding (`json.Marshal`) -/

/-- Lower-case hex digit. -/
def hexDigit (n : Nat) : Char :=
  Char.ofNat (if n < 10 then 48 + n else 87 + n)

/-- `json.Marshal` escaping of one character (HTML escaping on, as in the
default `json.Marshal` used by the validators). -/
def escapeChar (c : Char) : List Char :=
  if c = '"' then ['\\', '"']
  else if c = '\\' then ['\\', '\\']
  else if c = '\n' then ['\\', 'n']
  else if c = '\r' then ['\\', 'r']
  else if c = '\t' then ['\\', 't']
  else if c = '<' || c = '>' || c = '&' then
    ['\\', 'u', '0', '0', hexDigit (c.toNat / 16), hexDigit (c.toNat % 16)]
  else if c.toNat < 0x20 then
    ['\\', 'u', '0', '0', hexDigit (c.toNat / 16), hexDigit (c.toNat % 16)]
  else if c.toNat = 0x2028 || c.toNat = 0x2029 then
    ['\\', 'u', '2', '0', '2', hexDigit (c.toNat % 16)]
  else [c]

/-- JSON encoding of a string value. -/
def marshalString (s : String) : String :=
  "\"" ++ (s.toList.flatMap escapeChar).asString ++ "\""

/-- Decimal digits of a natural number (most significant first); the fuel
argument only bounds the recursion and `natDigits` supplies enough of it. -/
def natDigitsAux : Nat → Nat → List Char
  | 0, n => [Char.ofNat ('0'.toNat + n % 10)]
  | fuel + 1, n =>
    if n < 10 then [Char.ofNat ('0'.toNat + n)]
    else natDigitsAux fuel (n / 10) ++ [Char.ofNat ('0'.toNat + n % 10)]

/-- Decimal digits of a natural number (most significant first). -/
def natDigits (n : Nat) : List Char := natDigitsAux n n

/-- JSON encoding of a Go `int`. -/
def marshalInt (n : Int) : String :=
  if n < 0 then "-" ++ (natDigits n.natAbs).asString
  else (natDigits n.natAbs).asString

/-- JSON encoding of a Go `bool`. -/
def marshalBool (b : Bool) : String := if b then "true" else "false"

/-- The comma-separated `"key":"value"` entries of a marshalled string map. -/
def renderHeaderEntries : Headers → String
  | [] => ""
  | [(k, v)] => marshalString k ++ ":" ++ marshalString v
  | (k, v) :: t => marshalString k ++ ":" ++ marshalString v ++ "," ++
      renderHeaderEntries t

/-- JSON encoding of a `map[string]string`: entries sorted by key
(`json.Marshal` sorts map keys byte-wise; `Headers` lists are maintained in
that order). -/
def marshalHeaders (m : Headers) : String :=
  "\x7b" ++ renderHeaderEntries m ++ "\x7d"

/-! ### Config records and defaults from `internal/storage/validators.go` -/

/-- `storage.HTTPCheckConfig` (JSON tags: `method`, `headers`, `body`,
`expected_status`, `expected_content`, `follow_redirects`, `verify_ssl`). -/
structure HTTPCheckConfig where
  method : String
  headers : Headers
  body : String
  expectedStatus : Int
  expectedContent : String
  followRedirects : Bool
  verifySSL : Bool
deriving Repr, DecidableEq

/-- `storage.PingCheckConfig` (JSON tags: `count`, `interval`, `size`). -/
structure PingCheckConfig where
  count : Int
  interval : Int
  size : Int
deriving Repr, DecidableEq

/-- `storage.HTTPDefaultsConfig` (application defaults for HTTP checks). -/
structure HTTPDefaultsConfig where
  method : String
  headers : Headers
  body : String
  timeoutSeconds : Int
  expectedStatus : Int
  expectedContent : String
  followRedirects : Bool
  verifySSL : Bool
deriving Repr, DecidableEq

/-- `storage.PingDefaultsConfig` (application defaults for ping checks). -/
structure PingDefaultsConfig where
  count : Int
  intervalMs : Int
  packetSize : Int
  timeoutSeconds : Int
deriving Repr, DecidableEq

/-! #### Header map operations (Go `map[string]string` up to observation) -/

/-- Keyed insert keeping the list sorted by key; an existing key's value is
replaced (Go `m[k] = v`). -/
def hdrInsert : Headers → String → String → Headers
  | [], k, v => [(k, v)]
  | (k0, v0) :: t, k, v =>
    if k < k0 then (k, v) :: (k0, v0) :: t
    else if k = k0 then (k, v) :: t
    else (k0, v0) :: hdrInsert t k v

/-- Keyed lookup (Go `m[k]`). -/
def hdrLookup : Headers → String → Option String
  | [], _ => none
  | (k0, v0) :: t, k => if k = k0 then some v0 else hdrLookup t k

/-- Insert every entry of `entries` into `base` (Go `for k, v := range
entries { base[k] = v }`). -/
def hdrInsertAll (base : Headers) (entries : Headers) : Headers :=
  (entries : List (String × String)).foldl (fun m kv => hdrInsert m kv.1 kv.2) base

/-! #### Struct decoding (`json.Unmarshal` into the config records)

Go matches a JSON key against a struct field's tag case-insensitively
(exact match preferred; irrelevant here because no two tags collide under
folding), decodes `null` as a no-op, ignores unknown keys, and processes
keys in input order so the last duplicate wins. -/

/-- ASCII-folded key comparison (`strings.EqualFold` on the ASCII tags). -/
def keyFold (a b : String) : Bool :=
  a.toList.map Char.toLower == b.toList.map Char.toLower

/-- Decode a JSON object value into a `map[string]string` field, merging
into the existing map as the Go decoder does. -/
def decodeHeadersField (base : Headers) : List (String × JValue) →
    Except String Headers
  | [] => .ok base
  | (k, .jstr v) :: t => decodeHeadersField (hdrInsert base k v) t
  | (k, .jnull) :: t => decodeHeadersField (hdrInsert base k "") t
  | (_, _) :: _ => .error "cannot unmarshal value into string map entry"

/-- Decode one JSON object field into an `HTTPCheckConfig`. -/
def decodeHTTPField (cfg : HTTPCheckConfig) (key : String) (v : JValue) :
    Except String HTTPCheckConfig :=
  if keyFold key "method" then
    match v with
    | .jstr s => .ok { cfg with method := s }
    | .jnull => .ok cfg
    | _ => .error "cannot unmarshal value into field method of type string"
  else if keyFold key "headers" then
    match v with
    | .jobj fields => (decodeHeadersField cfg.headers fields).map
        fun m => { cfg with headers := m }
    | .jnull => .ok cfg
    | _ => .error "cannot unmarshal value into field headers"
  else if keyFold key "body" then
    match v with
    | .jstr s => .ok { cfg with body := s }
    | .jnull => .ok cfg
    | _ => .error "cannot unmarshal value into field body of type string"
  else if keyFold key "expected_status" then
    match v with
    | .jnum lit =>
      (match jnumToInt lit with
       | some n => .ok { cfg with expectedStatus := n }
       | none => .error "cannot unmarshal number into field expected_status of type int")
    | .jnull => .ok cfg
    | _ => .error "cannot unmarshal value into field expected_status of type int"
  else if keyFold key "expected_content" then
    match v with
    | .jstr s => .ok { cfg with expectedContent := s }
    | .jnull => .ok cfg
    | _ => .error "cannot unmarshal value into field expected_content of type string"
  else if keyFold key "follow_redirects" then
    match v with
    | .jbool b => .ok { cfg with followRedirects := b }
    | .jnull => .ok cfg
    | _ => .error "cannot unmarshal value into field follow_redirects of type bool"
  else if keyFold key "verify_ssl" then
    match v with
    | .jbool b => .ok { cfg with verifySSL := b }
    | .jnull => .ok cfg
    | _ => .error "cannot unmarshal value into field verify_ssl of type bool"
  else
    .ok cfg

/-- Decode a parsed JSON object into an `HTTPCheckConfig`, field by field. -/
def decodeHTTPFields (cfg : HTTPCheckConfig) :
    List (String × JValue) → Except String HTTPCheckConfig
  | [] => .ok cfg
  | (k, v) :: t => do decodeHTTPFields (← decodeHTTPField cfg k v) t

/-- `json.Unmarshal(configStr, cfg)` for `HTTPCheckConfig`. -/
def jsonUnmarshalHTTP (s : String) (cfg : HTTPCheckConfig) :
    Except String HTTPCheckConfig :=
  match jsonUnmarshalValue s with
  | none => .error "invalid character in JSON input"
  | some .jnull => .ok cfg
  | some (.jobj fields) => decodeHTTPFields cfg fields
  | some _ => .error "cannot unmarshal value into HTTPCheckConfig"

/-- Decode one JSON object field into a `PingCheckConfig`. -/
def decodePingField (cfg : PingCheckConfig) (key : String) (v : JValue) :
    Except String PingCheckConfig :=
  if keyFold key "count" then
    match v with
    | .jnum lit =>
      (match jnumToInt lit with
       | some n => .ok { cfg with count := n }
       | none => .error "cannot unmarshal number into field count of type int")
    | .jnull => .ok cfg
    | _ => .error "cannot unmarshal value into field count of type int"
  else if keyFold key "interval" then
    match v with
    | .jnum lit =>
      (match jnumToInt lit with
       | some n => .ok { cfg with interval := n }
       | none => .error "cannot unmarshal number into field interval of type int")
    | .jnull => .ok cfg
    | _ => .error "cannot unmarshal value into field interval of type int"
  else if keyFold key "size" then
    match v with
    | .jnum lit =>
      (match jnumToInt lit with
       | some n => .ok { cfg with size := n }
       | none => .error "cannot unmarshal number into field size of type int")
    | .jnull => .ok cfg
    | _ => .error "cannot unmarshal value into field size of type int"
  else
    .ok cfg

/-- Decode a parsed JSON object into a `PingCheckConfig`. -/
def decodePingFields (cfg : PingCheckConfig) :
    List (String × JValue) → Except String PingCheckConfig
  | [] => .ok cfg
  | (k, v) :: t => do decodePingFields (← decodePingField cfg k v) t

/-- `json.Unmarshal(configStr, cfg)` for `PingCheckConfig`. -/
def jsonUnmarshalPing (s : String) (cfg : PingCheckConfig) :
    Except String PingCheckConfig :=
  match jsonUnmarshalValue s with
  | none => .error "invalid character in JSON input"
  | some .jnull => .ok cfg
  | some (.jobj fields) => decodePingFields cfg fields
  | some _ => .error "cannot unmarshal value into PingCheckConfig"

/-- `json.Marshal` of an `HTTPCheckConfig` (fields in declaration order). -/
def marshalHTTPCheckConfig (cfg : HTTPCheckConfig) : String :=
  "\x7b\"method\":" ++ marshalString cfg.method ++
  ",\"headers\":" ++ marshalHeaders cfg.headers ++
  ",\"body\":" ++ marshalString cfg.body ++
  ",\"expected_status\":" ++ marshalInt cfg.expectedStatus ++
  ",\"expected_content\":" ++ marshalString cfg.expectedContent ++
  ",\"follow_redirects\":" ++ marshalBool cfg.followRedirects ++
  ",\"verify_ssl\":" ++ marshalBool cfg.verifySSL ++ "\x7d"

/-- `json.Marshal` of a `PingCheckConfig`. -/
def marshalPingCheckConfig (cfg : PingCheckConfig) : String :=
  "\x7b\"count\":" ++ marshalInt cfg.count ++
  ",\"interval\":" ++ marshalInt cfg.interval ++
  ",\"size\":" ++ marshalInt cfg.size ++ "\x7d"

/-! #### Round-trip bookkeeping

To reason about re-parsing marshalled output we view a marshalled object
as a list of fields, each carrying its JSON tag, its rendered character
sequence, and the `JValue` that re-parsing that sequence produces. -/

/-- The Go zero value of `HTTPCheckConfig` (a freshly declared struct). -/
def httpZeroConfig : HTTPCheckConfig :=
  { method := "", headers := [], body := "", expectedStatus := 0,
    expectedContent := "", followRedirects := false, verifySSL := false }

/-- The Go zero value of `PingCheckConfig`. -/
def pingZeroConfig : PingCheckConfig :=
  { count := 0, interval := 0, size := 0 }

/-- Render a non-empty field list as the inside of a JSON object:
`"k1":v1,"k2":v2,...` (no spaces, as `json.Marshal` emits). -/
def fieldsRender : List (String × List Char × JValue) → List Char
  | [] => []
  | [(k, rv, _)] => (marshalString k).toList ++ ':' :: rv
  | (k, rv, _) :: t => (marshalString k).toList ++ ':' :: rv ++ ',' ::
      fieldsRender t

/-- The parsed view of a rendered field list. -/
def fieldsView (l : List (String × List Char × JValue)) :
    List (String × JValue) :=
  l.map fun e => (e.1, e.2.2)

/-- Rendered fields of a marshalled string map. -/
def headerFields (m : Headers) : List (String × List Char × JValue) :=
  m.map fun kv => (kv.1, (marshalString kv.2).toList, JValue.jstr kv.2)

/-- Rendered fields of a marshalled `HTTPCheckConfig`. -/
def httpFields (cfg : HTTPCheckConfig) : List (String × List Char × JValue) :=
  [("method", (marshalString cfg.method).toList, .jstr cfg.method),
   ("headers", (marshalHeaders cfg.headers).toList,
     .jobj (fieldsView (headerFields cfg.headers))),
   ("body", (marshalString cfg.body).toList, .jstr cfg.body),
   ("expected_status", (marshalInt cfg.expectedStatus).toList,
     .jnum (marshalInt cfg.expectedStatus)),
   ("expected_content", (marshalString cfg.expectedContent).toList,
     .jstr cfg.expectedContent),
   ("follow_redirects", (marshalBool cfg.followRedirects).toList,
     .jbool cfg.followRedirects),
   ("verify_ssl", (marshalBool cfg.verifySSL).toList,
     .jbool cfg.verifySSL)]

/-- Rendered fields of a marshalled `PingCheckConfig`. -/
def pingFields (cfg : PingCheckConfig) : List (String × List Char × JValue) :=
  [("count", (marshalInt cfg.count).toList, .jnum (marshalInt cfg.count)),
   ("interval", (marshalInt cfg.interval).toList,
     .jnum (marshalInt cfg.interval)),
   ("size", (marshalInt cfg.size).toList, .jnum (marshalInt cfg.size))]

/-- A header list in the shape the code maintains: strictly sorted by key
(hence key-distinct), as `json.Marshal`'s sorted-key output. -/
def hdrSortedKeys (m : Headers) : Prop :=
  List.Pairwise (fun a b : String × String => a.1 < b.1) m

/-- Every key present in `b` is present in `m`. -/
def hdrKeySub (b m : Headers) : Prop :=
  ∀ k, (hdrLookup b k).isSome = true → (hdrLookup m k).isSome = true

/-! ### Config validation from `internal/storage/validators.go` -/

/-- ASCII upper-casing (`strings.ToUpper` on the ASCII method names). -/
def asciiToUpper (s : String) : String := (s.toList.map Char.toUpper).asString

/-- ASCII lower-casing. -/
def asciiToLower (s : String) : String := (s.toList.map Char.toLower).asString

/-- Model of Go's `strings.Contains`. -/
def goStrContains (s sub : String) : Bool :=
  indexOf s.toList sub.toList ≥ 0

/-- The hard-coded safe defaults `ValidateHTTPCheckConfig` starts from. -/
def httpConfigBase : HTTPCheckConfig :=
  { method := "GET", headers := [], body := "", expectedStatus := 200,
    expectedContent := "", followRedirects := true, verifySSL := true }

/-- Application of explicit defaults over the hard-coded base, guard by
guard as in `ValidateHTTPCheckConfig`. -/
def applyHTTPDefaults (cfg : HTTPCheckConfig) (defaults : Option HTTPCheckConfig) :
    HTTPCheckConfig :=
  match defaults with
  | none => cfg
  | some d =>
    let cfg := if d.method ≠ "" then { cfg with method := d.method } else cfg
    let cfg := if d.expectedStatus ≠ 0 then
      { cfg with expectedStatus := d.expectedStatus } else cfg
    let cfg := { cfg with followRedirects := d.followRedirects,
                          verifySSL := d.verifySSL }
    let cfg := { cfg with headers := hdrInsertAll cfg.headers d.headers }
    let cfg := if d.body ≠ "" then { cfg with body := d.body } else cfg
    if d.expectedContent ≠ "" then
      { cfg with expectedContent := d.expectedContent } else cfg

/-- The supported HTTP methods. -/
def validMethods : List String :=
  ["GET", "POST", "PUT", "DELETE", "HEAD", "OPTIONS", "PATCH"]

/-- The per-entry header checks of `ValidateHTTPCheckConfig`. -/
def headersCheck : Headers → Except String Unit
  | [] => .ok ()
  | (k, v) :: t =>
    if k = "" then .error "header key cannot be empty"
    else if goLen k > 100 then .error ("header key too long: " ++ k)
    else if goLen v > 1000 then .error ("header value too long for key " ++ k)
    else headersCheck t

/-- `ValidateHTTPCheckConfig`: defaults, then user JSON, then validation,
then canonical re-serialisation. -/
def ValidateHTTPCheckConfig (configStr : String)
    (defaults : Option HTTPCheckConfig) : Except String String :=
  let base := applyHTTPDefaults httpConfigBase defaults
  let parsed : Except String HTTPCheckConfig :=
    if configStr ≠ "" && configStr ≠ "\x7b\x7d" then
      match jsonUnmarshalHTTP configStr base with
      | .ok c => .ok c
      | .error e => .error ("invalid JSON format: " ++ e)
    else .ok base
  match parsed with
  | .error e => .error e
  | .ok cfg0 =>
    let method := asciiToUpper cfg0.method
    if validMethods.contains method = false then
      .error ("invalid HTTP method: " ++ method)
    else
      let cfg := { cfg0 with method := method }
      if cfg.expectedStatus < 100 || cfg.expectedStatus > 599 then
        .error "invalid expected status code (must be between 100-599)"
      else match headersCheck cfg.headers with
        | .error e => .error e
        | .ok () =>
          if goLen cfg.body > 10 * 1024 * 1024 then
            .error "request body too large (max 10MB)"
          else if goLen cfg.expectedContent > 1000 then
            .error "expected content too long (max 1000 chars)"
          else .ok (marshalHTTPCheckConfig cfg)

/-- The hard-coded defaults `ValidatePingCheckConfig` starts from. -/
def pingConfigBase : PingCheckConfig :=
  { count := 3, interval := 300, size := 56 }

/-- Application of explicit ping defaults, guard by guard. -/
def applyPingDefaults (cfg : PingCheckConfig) (defaults : Option PingCheckConfig) :
    PingCheckConfig :=
  match defaults with
  | none => cfg
  | some d =>
    let cfg := if d.count ≠ 0 then { cfg with count := d.count } else cfg
    let cfg := if d.interval ≠ 0 then { cfg with interval := d.interval } else cfg
    if d.size ≠ 0 then { cfg with size := d.size } else cfg

/-- `ValidatePingCheckConfig`. -/
def ValidatePingCheckConfig (configStr : String)
    (defaults : Option PingCheckConfig) : Except String String :=
  let base := applyPingDefaults pingConfigBase defaults
  let parsed : Except String PingCheckConfig :=
    if configStr ≠ "" && configStr ≠ "\x7b\x7d" then
      match jsonUnmarshalPing configStr base with
      | .ok c => .ok c
      | .error e => .error ("invalid JSON format: " ++ e)
    else .ok base
  match parsed with
  | .error e => .error e
  | .ok cfg =>
    if cfg.count ≤ 0 || cfg.count > 10 then
      .error "invalid count (must be between 1-10)"
    else if cfg.interval < 100 || cfg.interval > 10000 then
      .error "invalid interval (must be between 100-10000)"
    else if cfg.size < 8 || cfg.size > 1472 then
      .error "invalid packet size (must be between 8-1472)"
    else .ok (marshalPingCheckConfig cfg)

/-- `validateCheckConfig`: dispatch on the check type, translating the
installed defaults into the storage config shapes as the Go code does. -/
def validateCheckConfig (httpD : Option HTTPDefaultsConfig)
    (pingD : Option PingDefaultsConfig) (checkType configStr : String) :
    Except String String :=
  if checkType = CheckTypeHTTP then
    ValidateHTTPCheckConfig configStr (httpD.map fun d =>
      { method := d.method, headers := d.headers, body := d.body,
        expectedStatus := d.expectedStatus, expectedContent := d.expectedContent,
        followRedirects := d.followRedirects, verifySSL := d.verifySSL })
  else if checkType = CheckTypePing then
    ValidatePingCheckConfig configStr (pingD.map fun d =>
      { count := d.count, interval := d.intervalMs, size := d.packetSize })
  else .error ("unsupported check type: " ++ checkType)

/-! ### IP and URL models (Go `net.ParseIP`, `net/url.Parse`)

These model the standard-library leaves the target validators call.  They
follow the Go parsers on the address/URL shapes the validators care about;
only acceptance is consumed (never the error text). -/

/-- Model of Go's `strings.Split` on a single-character separator. -/
def splitOnSep (sep : Char) : List Char → List (List Char)
  | [] => [[]]
  | c :: rest =>
    if c = sep then [] :: splitOnSep sep rest
    else match splitOnSep sep rest with
      | h :: t => (c :: h) :: t
      | [] => [[c]]

/-- `isValidIPv4` from validators.go: four dotted decimal octets, no
leading zeros, each ≤ 255. -/
def isValidIPv4 (ip : String) : Bool :=
  let parts := splitOnSep '.' ip.toList
  parts.length = 4 && parts.all fun p =>
    p ≠ [] &&
    !(decide (p.length > 1) && p.head? = some '0') &&
    p.all isDigitChar &&
    decide (p.foldl (fun acc c => acc * 10 + (c.toNat - '0'.toNat)) 0 ≤ 255)

/-- Octet values of a strict dotted-quad IPv4 address (Go ≥1.17
`net.ParseIP` rules coincide with `isValidIPv4`). -/
def parseIPv4Bytes (s : String) : Option (List Nat) :=
  if isValidIPv4 s then
    some ((splitOnSep '.' s.toList).map fun p =>
      p.foldl (fun acc c => acc * 10 + (c.toNat - '0'.toNat)) 0)
  else none

/-- Value of one IPv6 hex group (1–4 hex digits). -/
def hexGroupVal (cs : List Char) : Option Nat :=
  if cs ≠ [] && cs.length ≤ 4 && cs.all (fun c => (hexVal c).isSome) then
    some (cs.foldl (fun acc c => acc * 16 + (hexVal c).getD 0) 0)
  else none

/-- Split a character list at the first occurrence of an infix pattern. -/
def splitFirstInfix (pat : List Char) : List Char → Option (List Char × List Char)
  | [] => if pat = [] then some ([], []) else none
  | c :: rest =>
    if pat.isPrefixOf (c :: rest) then some ([], (c :: rest).drop pat.length)
    else (splitFirstInfix pat rest).map fun (b, a) => (c :: b, a)

/-- Bytes of a list of IPv6 groups; a dotted-quad group is allowed only in
the last position when `v4Allowed`. -/
def ipv6GroupBytes (v4Allowed : Bool) : List (List Char) → Option (List Nat)
  | [] => some []
  | [p] =>
    if v4Allowed && p.contains '.' then parseIPv4Bytes p.asString
    else (hexGroupVal p).map fun v => [v / 256, v % 256]
  | p :: rest =>
    match hexGroupVal p with
    | none => none
    | some v => (ipv6GroupBytes v4Allowed rest).map fun bs => v / 256 :: v % 256 :: bs

/-- The 16 bytes of an IPv6 address (model of `net.ParseIP`'s v6 branch):
at most one `::`, hex groups of 1–4 digits, an optional trailing embedded
IPv4, 16 bytes exactly without `::` and strictly fewer with it. -/
def parseIPv6Bytes (s : String) : Option (List Nat) :=
  match splitFirstInfix "::".toList s.toList with
  | some (l, r) =>
    if goStrContains (String.mk r) "::" then none
    else
      let groupsL := if l = [] then [] else splitOnSep ':' l
      let groupsR := if r = [] then [] else splitOnSep ':' r
      match ipv6GroupBytes false groupsL, ipv6GroupBytes true groupsR with
      | some bl, some br =>
        if bl.length + br.length < 16 then
          some (bl ++ List.replicate (16 - bl.length - br.length) 0 ++ br)
        else none
      | _, _ => none
  | none =>
    match ipv6GroupBytes true (splitOnSep ':' s.toList) with
    | some bs => if bs.length = 16 then some bs else none
    | none => none

/-- An IP address as `net.ParseIP` returns it: 4 bytes for dotted-quad
input, 16 bytes for IPv6 input. -/
structure GoIP where
  bytes : List Nat
deriving Repr, DecidableEq

/-- Model of `net.ParseIP`: the first `.` or `:` decides the family. -/
def goParseIP (s : String) : Option GoIP :=
  match s.toList.find? (fun c => c = '.' || c = ':') with
  | some '.' => (parseIPv4Bytes s).map GoIP.mk
  | some ':' => (parseIPv6Bytes s).map GoIP.mk
  | _ => none

/-- Whether `To4()` would be non-nil: a 4-byte address, or a 16-byte
IPv4-mapped address (`::ffff:a.b.c.d`). -/
def GoIP.to4IsSome (ip : GoIP) : Bool :=
  ip.bytes.length = 4 ||
  (ip.bytes.length = 16 && (ip.bytes.take 10).all (· = 0) &&
    ip.bytes.get? 10 = some 0xff && ip.bytes.get? 11 = some 0xff)

/-- `isValidIPv6` from validators.go: contains a colon, parses, and is not
IPv4-convertible. -/
def isValidIPv6 (ip : String) : Bool :=
  goStrContains ip ":" &&
    match goParseIP ip with
    | some p => !p.to4IsSome
    | none => false

/-- `validateHostname` from validators.go. -/
def validateHostname (host : String) : Except String Unit :=
  if goLen host > 253 then .error "hostname too long (max 253 chars)"
  else if goStrContains host ".." || host.toList.head? = some '.' ||
      host.toList.getLast? = some '.' then
    .error "invalid hostname format"
  else if !(host.toList.all fun r =>
      ('a' ≤ r && r ≤ 'z') || ('A' ≤ r && r ≤ 'Z') ||
      ('0' ≤ r && r ≤ '9') || r = '.' || r = '-') then
    .error "hostname contains invalid characters"
  else .ok ()

/-- A parsed URL reduced to what `validateHTTPCheckTarget` reads: the
(lower-cased) scheme and `Hostname()` (authority host with userinfo, port
and IPv6 brackets stripped). -/
structure GoURL where
  scheme : String
  hostname : String
deriving Repr, DecidableEq

/-- Split a character list at the last occurrence of `c`. -/
def splitAtLastChar (c : Char) (l : List Char) : Option (List Char × List Char) :=
  match splitFirstInfix [c] l.reverse with
  | some (afterRev, beforeRev) => some (beforeRev.reverse, afterRev.reverse)
  | none => none

/-- Model of `net/url.Parse` for the URL shapes the validator meets:
`scheme://[userinfo@]host[:port][/...]`; a non-numeric port is a parse
error, as in Go. -/
def urlParse (raw : String) : Except String GoURL :=
  match splitFirstInfix "://".toList raw.toList with
  | none => .ok { scheme := "", hostname := "" }
  | some (schemeCs, rest) =>
    if schemeCs = [] then .error "missing protocol scheme"
    else
      let scheme := asciiToLower (String.mk schemeCs)
      let authority := rest.takeWhile fun c => c ≠ '/' && c ≠ '?' && c ≠ '#'
      let hostport :=
        match splitAtLastChar '@' authority with
        | some (_, after) => after
        | none => authority
      match hostport with
      | '[' :: t =>
        (match splitFirstInfix [']'] t with
         | none => .error "missing closing bracket in host"
         | some (inside, after) =>
           match after with
           | [] => .ok { scheme := scheme, hostname := String.mk inside }
           | ':' :: p =>
             if p.all isDigitChar then
               .ok { scheme := scheme, hostname := String.mk inside }
             else .error "invalid port after host"
           | _ => .error "invalid character after host" )
      | _ =>
        if hostport.contains ':' then
          match splitAtLastChar ':' hostport with
          | some (h, p) =>
            if p.all isDigitChar then
              .ok { scheme := scheme, hostname := String.mk h }
            else .error "invalid port after host"
          | none => .ok { scheme := scheme, hostname := String.mk hostport }
        else .ok { scheme := scheme, hostname := String.mk hostport }

/-- `validateHTTPCheckTarget`: prepend `https://` when no scheme, parse,
require an http(s) scheme and a plausible host. -/
def validateHTTPCheckTarget (target : String) : Except String Unit :=
  let target := if !goStrContains target "://" then "https://" ++ target else target
  match urlParse target with
  | .error e => .error ("invalid URL format: " ++ e)
  | .ok parsed =>
    if parsed.scheme ≠ "http" && parsed.scheme ≠ "https" then
      .error ("invalid scheme: " ++ parsed.scheme ++ " (only http and https supported)")
    else
      let host := parsed.hostname
      if host = "" then .error "missing host"
      else if goLen host > 253 then .error "hostname too long"
      else if (goParseIP host).isSome then .ok ()
      else if host = "localhost" then .ok ()
      else if !goStrContains host "." then .error "invalid hostname"
      else if goStrContains host ".." || host.toList.head? = some '.' ||
          host.toList.getLast? = some '.' then
        .error "invalid hostname format"
      else .ok ()

/-- `validatePingCheckTarget`: strict IPv4, IPv6, or a hostname containing
at least one letter. -/
def validatePingCheckTarget (target : String) : Except String Unit :=
  if target = "" then .error "ping target cannot be empty"
  else if isValidIPv4 target then .ok ()
  else if isValidIPv6 target then .ok ()
  else if !(target.toList.any fun r =>
      ('a' ≤ r && r ≤ 'z') || ('A' ≤ r && r ≤ 'Z')) then
    .error "target is not a valid IP address or hostname"
  else validateHostname target

/-- `validateCheckTarget`: dispatch on the check type. -/
def validateCheckTarget (checkType target : String) : Except String Unit :=
  if checkType = CheckTypeHTTP then validateHTTPCheckTarget target
  else if checkType = CheckTypePing then validatePingCheckTarget target
  else .error ("unknown check type: " ++ checkType)

/-- `ValidateCheck` (first, timestamp-free variant): name, type, target,
interval/timeout bounds, then config validation; the canonicalised config
is written back into the check. -/
def ValidateCheck (httpD : Option HTTPDefaultsConfig)
    (pingD : Option PingDefaultsConfig) (check : Check) : Except String Check :=
  if check.name = "" then .error "check name cannot be empty"
  else if goLen check.name > 100 then .error "check name too long (max 100 chars)"
  else if !IsValidCheckType check.ctype then
    .error ("unsupported check type: " ++ check.ctype)
  else if check.target = "" then .error "check target cannot be empty"
  else match validateCheckTarget check.ctype check.target with
    | .error e => .error ("invalid target: " ++ e)
    | .ok () =>
      if check.intervalSeconds < 5 then
        .error "check interval too short (minimum 5 seconds)"
      else if check.intervalSeconds > 86400 then
        .error "check interval too long (maximum 24 hours)"
      else if check.timeoutSeconds < 1 then
        .error "check timeout too short (minimum 1 second)"
      else if check.timeoutSeconds > 300 then
        .error "check timeout too long (maximum 5 minutes)"
      else if check.timeoutSeconds ≥ check.intervalSeconds then
        .error "check timeout must be less than interval"
      else match validateCheckConfig httpD pingD check.ctype check.config with
        | .error e => .error ("invalid configuration: " ++ e)
        | .ok validated => .ok { check with config := validated }

/-! ### Alert config validation from `internal/storage/validators.go` -/

/-- Insert into a JSON-object map (duplicate JSON keys: last wins, as the
decoder overwrites while building `map[string]interface{}`). -/
def jmapInsert : List (String × JValue) → String → JValue → List (String × JValue)
  | [], k, v => [(k, v)]
  | (k0, v0) :: t, k, v =>
    if k = k0 then (k, v) :: t else (k0, v0) :: jmapInsert t k v

/-- Keyed lookup in a JSON-object map (Go `config[k]`). -/
def jmapLookup : List (String × JValue) → String → Option JValue
  | [], _ => none
  | (k0, v0) :: t, k => if k = k0 then some v0 else jmapLookup t k

/-- `json.Unmarshal` into a `map[string]interface{}`: a JSON object becomes
a map, `null` a nil map (all lookups miss), anything else is an error. -/
def jvalueToMap : JValue → Option (List (String × JValue))
  | .jobj fields => some (fields.foldl (fun m kv => jmapInsert m kv.1 kv.2) [])
  | .jnull => some []
  | _ => none

/-- `validateServiceAlertConfig` (shared by Telegram and Bale): `token`
and `chat_id` are optional, but must be strings of the right shape when
present. -/
def validateServiceAlertConfig (config : List (String × JValue))
    (serviceName : String) : Except String Unit :=
  let tokenStep : Except String Unit :=
    match jmapLookup config "token" with
    | some (.jstr tokenStr) =>
      if goLen tokenStr < 10 then .error (serviceName ++ " token too short")
      else .ok ()
    | some _ => .error (serviceName ++ " token must be a string")
    | none => .ok ()
  match tokenStep with
  | .error e => .error e
  | .ok () =>
    match jmapLookup config "chat_id" with
    | some (.jstr chatIDStr) =>
      if chatIDStr = "" then .error (serviceName ++ " chat_id cannot be empty")
      else .ok ()
    | some _ => .error (serviceName ++ " chat_id must be a string")
    | none => .ok ()

/-- `validateEmailAlertConfig`. -/
def validateEmailAlertConfig (config : List (String × JValue)) :
    Except String Unit :=
  let hostStep : Except String Unit :=
    match jmapLookup config "smtp_host" with
    | some (.jstr hostStr) =>
      if hostStr = "" then .error "smtp_host cannot be empty" else .ok ()
    | some _ => .error "smtp_host must be a string"
    | none => .ok ()
  match hostStep with
  | .error e => .error e
  | .ok () =>
    match jmapLookup config "to" with
    | some (.jstr toStr) =>
      if !goStrContains toStr "@" then .error "invalid email format" else .ok ()
    | some _ => .error "email to field must be a string"
    | none => .ok ()

/-- `validateWebhookAlertConfig`. -/
def validateWebhookAlertConfig (config : List (String × JValue)) :
    Except String Unit :=
  match jmapLookup config "url" with
  | some (.jstr urlStr) =>
    (match urlParse urlStr with
     | .ok _ => .ok ()
     | .error e => .error ("invalid webhook URL: " ++ e))
  | some _ => .error "webhook URL must be a string"
  | none => .ok ()

/-- `validateAlertConfig`: empty configs pass; otherwise the JSON must
parse into a map and satisfy the per-type field checks. -/
def validateAlertConfig (alertType configStr : String) : Except String Unit :=
  if configStr = "" || configStr = "\x7b\x7d" then .ok ()
  else match jsonUnmarshalValue configStr with
    | none => .error "invalid JSON format"
    | some v =>
      match jvalueToMap v with
      | none => .error "invalid JSON format"
      | some m =>
        if alertType = AlertTypeTelegram then validateServiceAlertConfig m "telegram"
        else if alertType = AlertTypeBale then validateServiceAlertConfig m "bale"
        else if alertType = AlertTypeEmail then validateEmailAlertConfig m
        else if alertType = AlertTypeWebhook then validateWebhookAlertConfig m
        else .error ("unsupported alert type: " ++ alertType)

/-- `ValidateAlert` (first, timestamp-free variant): exactly one owner,
valid type, owner-appropriate condition type, threshold value when needed,
then type-specific config checks. -/
def ValidateAlert (alert : Alert) : Except String Unit :=
  let hasCheck := alert.checkID.isSome
  let hasAgent := alert.agentID.isSome
  if !hasCheck && !hasAgent then
    .error "alert must be associated with either a check or an agent"
  else if hasCheck && hasAgent then
    .error "alert cannot be associated with both a check and an agent"
  else if !IsValidAlertType alert.atype then
    .error ("unsupported alert type: " ++ alert.atype)
  else match validateAlertConditionType alert.conditionType hasCheck with
    | .error e => .error e
    | .ok () =>
      let conditionStep : Except String Unit :=
        if needsConditionValue alert.conditionType then
          match alert.conditionValue with
          | none =>
            .error ("condition value is required for condition type: " ++
              alert.conditionType)
          | some v =>
            if v < 0 || v > 100 then
              .error "condition value must be between 0 and 100 for percentage-based conditions"
            else .ok ()
        else .ok ()
      match conditionStep with
      | .error e => .error e
      | .ok () =>
        match validateAlertConfig alert.atype alert.config with
        | .error e => .error ("invalid alert configuration: " ++ e)
        | .ok () => .ok ()

/-! ## Theorems -/

/-- C2: the probe error classifier is total and deterministic — for every
error string it returns exactly one of `timeout`, `down`, `error`, with
`timeout` iff the string contains "timeout" or "deadline exceeded", `down`
iff (not a timeout and) it contains one of the four connection-failure
markers, `error` otherwise; and the success path (`CreateSuccessResult`)
always produces status `up`. -/
theorem determineErrorStatus_total_classification (s : String) :
    (DetermineErrorStatus s = CheckStatusTimeout ∨
      DetermineErrorStatus s = CheckStatusDown ∨
      DetermineErrorStatus s = CheckStatusError) ∧
    (DetermineErrorStatus s = CheckStatusTimeout ↔
      (strContains s "timeout" = true ∨ strContains s "deadline exceeded" = true)) ∧
    (DetermineErrorStatus s = CheckStatusDown ↔
      (¬(strContains s "timeout" = true ∨ strContains s "deadline exceeded" = true) ∧
        (strContains s "connection refused" = true ∨
          strContains s "no route to host" = true ∨
          strContains s "host unreachable" = true ∨
          strContains s "100% packet loss" = true))) ∧
    (DetermineErrorStatus s = CheckStatusError ↔
      (¬(strContains s "timeout" = true ∨ strContains s "deadline exceeded" = true) ∧
        ¬(strContains s "connection refused" = true ∨
          strContains s "no route to host" = true ∨
          strContains s "host unreachable" = true ∨
          strContains s "100% packet loss" = true))) ∧
    (∀ (checkID responseTime : Int) (statusCode : Option Int) (message : String)
        (now : Int),
      (CreateSuccessResult checkID responseTime statusCode message now).status =
        CheckStatusUp) := by
  by_cases h1 : strContains s "timeout" = true ∨ strContains s "deadline exceeded" = true
  · have hs : DetermineErrorStatus s = CheckStatusTimeout := by
      unfold DetermineErrorStatus
      rw [if_pos (by simpa [Bool.or_eq_true] using h1)]
    rw [hs]
    exact ⟨Or.inl rfl,
      iff_of_true rfl h1,
      iff_of_false (by decide) (fun h => h.1 h1),
      iff_of_false (by decide) (fun h => h.1 h1),
      fun _ _ _ _ _ => rfl⟩
  · by_cases h2 : strContains s "connection refused" = true ∨
        strContains s "no route to host" = true ∨
        strContains s "host unreachable" = true ∨
        strContains s "100% packet loss" = true
    · have hs : DetermineErrorStatus s = CheckStatusDown := by
        unfold DetermineErrorStatus
        rw [if_neg (by simp only [Bool.or_eq_true]; tauto),
          if_pos (by simp only [Bool.or_eq_true]; tauto)]
      rw [hs]
      exact ⟨Or.inr (Or.inl rfl),
        iff_of_false (by decide) h1,
        iff_of_true rfl ⟨h1, h2⟩,
        iff_of_false (by decide) (fun h => h.2 h2),
        fun _ _ _ _ _ => rfl⟩
    · have hs : DetermineErrorStatus s = CheckStatusError := by
        unfold DetermineErrorStatus
        rw [if_neg (by simp only [Bool.or_eq_true]; tauto),
          if_neg (by simp only [Bool.or_eq_true]; tauto)]
      rw [hs]
      exact ⟨Or.inr (Or.inr rfl),
        iff_of_false (by decide) h1,
        iff_of_false (by decide) (fun h => h2 h.2),
        iff_of_true rfl ⟨h1, h2⟩,
        fun _ _ _ _ _ => rfl⟩

/-- C8 counterexample: the claim says `response_time_ms = round(avg_rtt_ms)`,
but the code computes Go's `int(avgRTT)` — truncation toward zero.  At
`avg_rtt = 1.5 ms` (exactly representable) the code records 1 ms while
rounding gives 2 ms. -/
theorem createPingResult_truncates_not_rounds :
    (createPingResult 3 0 (3 / 2 : Rat) 99).responseTimeMs = some 1 ∧
    round (3 / 2 : Rat) = 2 ∧ (1 : Int) ≠ 2 := by
  refine ⟨?_, ?_, by decide⟩
  · simp only [createPingResult, goTruncToInt, CreateSuccessResult, CreateErrorResult]
    norm_num
  · rw [round_eq]; norm_num

/-- C8 (amended): the ping probe maps `(received, packet_loss, avg_rtt)` to
an observation with `received = 0 → down` and message "100% packet loss",
`packet_loss > 50 → down`, otherwise `up` with the formatted packet-loss
message; and in every case `response_time_ms` is `avg_rtt` truncated toward
zero (Go `int(avgRTT)`), not rounded. -/
theorem createPingResult_mapping (received : Int) (packetLoss avgRTT : Rat)
    (now : Int) :
    ((createPingResult received packetLoss avgRTT now).responseTimeMs =
      some (goTruncToInt avgRTT)) ∧
    (received = 0 →
      (createPingResult received packetLoss avgRTT now).status = CheckStatusDown ∧
      (createPingResult received packetLoss avgRTT now).errorMessage =
        some "100% packet loss") ∧
    (received ≠ 0 → packetLoss > 50 →
      (createPingResult received packetLoss avgRTT now).status = CheckStatusDown ∧
      (createPingResult received packetLoss avgRTT now).errorMessage =
        some (formatPercent1 packetLoss ++ "% packet loss")) ∧
    (received ≠ 0 → ¬(packetLoss > 50) →
      (createPingResult received packetLoss avgRTT now).status = CheckStatusUp ∧
      (createPingResult received packetLoss avgRTT now).errorMessage =
        some (formatPercent1 packetLoss ++ "% packet loss")) := by
  unfold createPingResult
  split_ifs with hr hl
  · simp_all [CreateErrorResult]
  · simp_all [CreateErrorResult]
  · simp_all [CreateSuccessResult, CheckStatusUp]

/-- C8 witness: the amended mapping applied at concrete inputs — three
packets received with no loss and `avg_rtt = 1.5` gives `up` with a 1 ms
response time, and zero packets received gives `down`. -/
theorem createPingResult_mapping_witness :
    (createPingResult 3 0 (3 / 2 : Rat) 99).status = CheckStatusUp ∧
    (createPingResult 3 0 (3 / 2 : Rat) 99).responseTimeMs = some 1 ∧
    (createPingResult 0 100 0 99).status = CheckStatusDown := by
  refine ⟨?_, ?_, ?_⟩
  · exact ((createPingResult_mapping 3 0 (3 / 2) 99).2.2.2 (by decide)
      (by norm_num)).1
  · rw [(createPingResult_mapping 3 0 (3 / 2) 99).1]
    simp only [goTruncToInt, Option.some.injEq]
    norm_num
  · exact ((createPingResult_mapping 0 100 0 99).2.1 rfl).1

/-- C10: for an offline `AgentHistory` record with a non-zero `agent_id`,
`ValidateAgentHistory` succeeds iff `collect_duration_ms = 0`, regardless
of the metric values, and a successful validation zeroes every metric
field in place. -/
theorem validateAgentHistory_offline_zeroes (h : AgentHistory)
    (hOff : h.isOffline = true) (hID : h.agentID ≠ 0) :
    ((∃ h2, ValidateAgentHistory h = .ok h2) ↔ h.collectDurationMs = 0) ∧
    (∀ h2, ValidateAgentHistory h = .ok h2 →
      h2 = { h with cpuLoad1 := 0, cpuLoad5 := 0, cpuLoad15 := 0,
                    cpuUsagePercent := 0, memoryTotalMB := 0, memoryUsedMB := 0,
                    memoryAvailableMB := 0, memoryUsagePercent := 0,
                    diskTotalGB := 0, diskUsedGB := 0, diskUsagePercent := 0 }) := by
  unfold ValidateAgentHistory
  rw [if_neg hID, hOff]
  by_cases hneg : h.collectDurationMs < 0
  · rw [if_pos hneg]
    constructor
    · constructor
      · rintro ⟨h2, hh2⟩; cases hh2
      · intro h0; omega
    · intro h2 hh2; cases hh2
  · rw [if_neg hneg]
    by_cases h0 : h.collectDurationMs ≠ 0
    · simp only [if_pos h0, if_true]
      constructor
      · constructor
        · rintro ⟨h2, hh2⟩; cases hh2
        · intro hz; exact absurd hz h0
      · intro h2 hh2; cases hh2
    · simp only [if_neg h0]
      constructor
      · constructor
        · intro _; omega
        · intro _; exact ⟨_, rfl⟩
      · intro h2 hh2
        simpa using hh2.symm

/-- C10 witness: an offline record with wildly out-of-range metrics
(negative loads, percentages above 100, zero totals) and zero collect
duration is accepted, and comes back with every metric field zeroed. -/
theorem validateAgentHistory_offline_zeroes_witness :
    ∃ h2, ValidateAgentHistory
      { agentID := 2, isOffline := true, collectDurationMs := 0,
        cpuLoad1 := -5, cpuLoad5 := 3, cpuLoad15 := 200, cpuUsagePercent := 150,
        memoryTotalMB := 0, memoryUsedMB := -1, memoryAvailableMB := 0,
        memoryUsagePercent := 120, diskTotalGB := 0, diskUsedGB := -2,
        diskUsagePercent := -1, collectedAt := 7 } = .ok h2 :=
  (validateAgentHistory_offline_zeroes _ rfl (by decide)).1.mpr rfl

/-- C9: the claim says every task context descends from the scheduler
context, which descends from the engine context.  In the code,
`Scheduler.Start` discards the context it derives from the engine context
(`_, cancel := context.WithCancel(ctx)`), and `startJobUnsafe` roots every
job context at `context.Background()`; the task context therefore does not
descend from the scheduler or engine contexts, and cancelling the engine
context does not cancel it — contradicting the code's own "Cancel context
to stop all jobs" comment.  The last conjunct shows the lineage the claim
describes would indeed make the engine context an ancestor. -/
theorem taskCtx_not_descendant_of_engineCtx :
    ctxIsDescendantOf (executeCheckCtx startJobCtx)
      (engineStartCtx backgroundCtx) = false ∧
    ctxIsDescendantOf (executeCheckCtx startJobCtx)
      (schedulerStartCtx (engineStartCtx backgroundCtx)) = false ∧
    ctxIsCancelled (executeCheckCtx startJobCtx)
      [engineStartCtx backgroundCtx] = false ∧
    ctxIsDescendantOf (executeCheckCtx startJobCtx) backgroundCtx = true ∧
    ctxIsDescendantOf
      (executeCheckCtx (schedulerStartCtx (engineStartCtx backgroundCtx)))
      (engineStartCtx backgroundCtx) = true := by
  decide

/-- One pool step preserves the sum of free tokens and running tasks. -/
theorem schedStep_sum (s : SchedState) (e : SchedEvent) :
    (schedStep s e).running + (schedStep s e).available =
      s.running + s.available := by
  cases e <;> simp only [schedStep] <;> split_ifs <;> simp <;> omega

/-- Folding any event trace preserves the token-count sum. -/
theorem schedFold_sum (evs : List SchedEvent) : ∀ s : SchedState,
    (List.foldl schedStep s evs).running +
      (List.foldl schedStep s evs).available = s.running + s.available := by
  induction evs with
  | nil => intro s; rfl
  | cons e t ih => intro s; rw [List.foldl_cons, ih]; exact schedStep_sum s e

/-- Two pool states agreeing on `running`/`available` still agree after a
step: the step never reads the skip counter. -/
theorem schedStep_congr (s t : SchedState) (e : SchedEvent)
    (hr : s.running = t.running) (ha : s.available = t.available) :
    (schedStep s e).running = (schedStep t e).running ∧
    (schedStep s e).available = (schedStep t e).available := by
  cases e <;> simp only [schedStep, hr, ha] <;> split_ifs <;> simp [hr, ha]

/-- Agreement on `running`/`available` is preserved by whole traces. -/
theorem schedFold_congr (evs : List SchedEvent) : ∀ s t : SchedState,
    s.running = t.running → s.available = t.available →
    (List.foldl schedStep s evs).running = (List.foldl schedStep t evs).running ∧
    (List.foldl schedStep s evs).available =
      (List.foldl schedStep t evs).available := by
  induction evs with
  | nil => intro s t hr ha; exact ⟨hr, ha⟩
  | cons e rest ih =>
    intro s t hr ha
    have h := schedStep_congr s t e hr ha
    simpa using ih (schedStep s e) (schedStep t e) h.1 h.2

/-- C5: after any trace of timer firings and task completions, at most
`worker_count` tasks run concurrently (free tokens plus running tasks is
exactly `worker_count`), and a firing that finds the pool exhausted only
bumps the skip counter — the skipped firing changes nothing else and has no
effect on any future `running`/`available` trajectory, so it never catches
up later (the state holds no queue at all). -/
theorem scheduler_backpressure (workerCount : Nat) (evs : List SchedEvent) :
    ((schedRun workerCount evs).running ≤ workerCount ∧
      (schedRun workerCount evs).running + (schedRun workerCount evs).available =
        workerCount) ∧
    (∀ s : SchedState, s.available = 0 →
      schedStep s .fire = { s with skipped := s.skipped + 1 }) ∧
    (∀ (s : SchedState) (more : List SchedEvent),
      (List.foldl schedStep { s with skipped := s.skipped + 1 } more).running =
        (List.foldl schedStep s more).running ∧
      (List.foldl schedStep { s with skipped := s.skipped + 1 } more).available =
        (List.foldl schedStep s more).available) := by
  refine ⟨?_, ?_, ?_⟩
  · unfold schedRun schedInit
    have h := schedFold_sum evs
      { available := workerCount, running := 0, skipped := 0 }
    simp at h
    constructor <;> omega
  · intro s h
    simp [schedStep, h]
  · intro s more
    exact schedFold_congr more { s with skipped := s.skipped + 1 } s rfl rfl

/-- C5 witness: with one worker, a second firing while the first task still
runs is skipped (only the counter moves), and no more than one task ever
runs. -/
theorem scheduler_backpressure_witness :
    schedStep { available := 0, running := 1, skipped := 0 } .fire =
      { available := 0, running := 1, skipped := 1 } ∧
    (schedRun 1 [.fire, .fire]).running ≤ 1 := by
  constructor
  · exact (scheduler_backpressure 1 []).2.1
      { available := 0, running := 1, skipped := 0 } rfl
  · exact (scheduler_backpressure 1 [.fire, .fire]).1.1

/-- C4: on a liveness tick an enabled agent is considered offline iff
`last_seen_at` is null or `now − last_seen_at > interval_seconds + 30 s`;
when offline, a synthetic history row with `is_offline = true`, all metric
fields zero and `collected_at = now` is always appended, the status is
moved to `offline` exactly when it was not already `offline` (an already
offline agent is left untouched), and a second offline tick appends a
second row. -/
theorem agentLiveness_offline_tick (now now2 : Int) (a : Agent) :
    (agentIsOffline now a = true ↔
      (a.lastSeenAt = none ∨ ∃ t, a.lastSeenAt = some t ∧
        now - t > a.intervalSeconds * nsPerSecond + gracePeriod)) ∧
    (agentIsOffline now a = true →
      (checkOfflineAgentStep now a).2 = [offlineAgentHistory now a] ∧
      (offlineAgentHistory now a).isOffline = true ∧
      (offlineAgentHistory now a).collectedAt = now ∧
      (offlineAgentHistory now a).cpuLoad1 = 0 ∧
      (offlineAgentHistory now a).cpuLoad5 = 0 ∧
      (offlineAgentHistory now a).cpuLoad15 = 0 ∧
      (offlineAgentHistory now a).cpuUsagePercent = 0 ∧
      (offlineAgentHistory now a).memoryTotalMB = 0 ∧
      (offlineAgentHistory now a).memoryUsedMB = 0 ∧
      (offlineAgentHistory now a).memoryAvailableMB = 0 ∧
      (offlineAgentHistory now a).memoryUsagePercent = 0 ∧
      (offlineAgentHistory now a).diskTotalGB = 0 ∧
      (offlineAgentHistory now a).diskUsedGB = 0 ∧
      (offlineAgentHistory now a).diskUsagePercent = 0 ∧
      (offlineAgentHistory now a).collectDurationMs = 0 ∧
      (checkOfflineAgentStep now a).1.status = AgentStatusOffline ∧
      (a.status = AgentStatusOffline → (checkOfflineAgentStep now a).1 = a)) ∧
    (agentIsOffline now a = false → checkOfflineAgentStep now a = (a, [])) ∧
    (agentIsOffline now a = true →
      agentIsOffline now2 (checkOfflineAgentStep now a).1 = true →
      ((checkOfflineAgentStep now a).2 ++
        (checkOfflineAgentStep now2 (checkOfflineAgentStep now a).1).2).length = 2) := by
  refine ⟨?_, ?_, ?_, ?_⟩
  · unfold agentIsOffline
    cases h : a.lastSeenAt with
    | none => simp
    | some t => simp [h]; omega
  · intro hoff
    unfold checkOfflineAgentStep
    rw [if_pos hoff]
    refine ⟨rfl, rfl, rfl, rfl, rfl, rfl, rfl, rfl, rfl, rfl, rfl, rfl, rfl, rfl,
      rfl, ?_, ?_⟩
    · by_cases hst : a.status ≠ AgentStatusOffline
      · simp [hst]
      · simp [hst]; simp at hst; exact hst
    · intro hst
      simp [hst]
  · intro hoff
    unfold checkOfflineAgentStep
    rw [if_neg (by simp [hoff])]
  · intro hoff hoff2
    have step2 : ∀ (n : Int) (x : Agent), agentIsOffline n x = true →
        (checkOfflineAgentStep n x).2 = [offlineAgentHistory n x] := by
      intro n x hx
      unfold checkOfflineAgentStep
      rw [if_pos hx]
    rw [step2 now a hoff, step2 now2 _ hoff2]
    simp

/-- C3 counterexample: with `expected_status = 200`, an actual status of
500 produces an observation with status `error`, not `down` as the claim
states — the classifier sees the message "unexpected status code: got 500,
expected 200", which matches none of the `down` markers. -/
theorem httpWrongStatus_yields_error_not_down :
    (validateResponse 1 500 "whatever ok"
      { method := "GET", headers := [], body := "", expectedStatus := 200,
        expectedContent := "ok", followRedirects := true, verifySSL := true,
        timeoutSeconds := 10 } 12 99).status = CheckStatusError ∧
    (validateResponse 1 500 "whatever ok"
      { method := "GET", headers := [], body := "", expectedStatus := 200,
        expectedContent := "ok", followRedirects := true, verifySSL := true,
        timeoutSeconds := 10 } 12 99).statusCode = some 500 ∧
    CheckStatusError ≠ CheckStatusDown := by
  refine ⟨by decide, by decide, by decide⟩

/-- C3 (amended): for an HTTP check with `expected_status = 200` and
`expected_content = "ok"`: a 200 response whose read body contains "ok" is
`up`; an actual status of 500 gives status `error` (not `down`) with
`status_code = 500`; a 200 response whose body lacks the substring gives
status `error` (not `down`) with `status_code = 200`; a DNS resolution
failure gives status `error`. -/
theorem httpProbe_decision_table (cfg : HTTPConfig)
    (hes : cfg.expectedStatus = 200) (hec : cfg.expectedContent = "ok") :
    (∀ (id rt now : Int) (body : String), strContains body "ok" = true →
      (validateResponse id 200 body cfg rt now).status = CheckStatusUp ∧
      (validateResponse id 200 body cfg rt now).statusCode = some 200) ∧
    (∀ (id rt now : Int) (body : String),
      (validateResponse id 500 body cfg rt now).status = CheckStatusError ∧
      (validateResponse id 500 body cfg rt now).statusCode = some 500) ∧
    (∀ (id rt now : Int) (body : String), strContains body "ok" = false →
      (validateResponse id 200 body cfg rt now).status = CheckStatusError ∧
      (validateResponse id 200 body cfg rt now).statusCode = some 200) ∧
    (∀ (id rt now : Int),
      (httpRequestFailedObservation id
        "dial tcp: lookup example.invalid: no such host" rt now).status =
        CheckStatusError) := by
  refine ⟨?_, ?_, ?_, ?_⟩
  · intro id rt now body hok
    unfold validateResponse
    rw [hes, hec]
    rw [if_neg (by omega)]
    rw [if_neg (by simp [hok])]
    exact ⟨rfl, rfl⟩
  · intro id rt now body
    unfold validateResponse
    rw [hes]
    rw [if_pos (by omega)]
    refine ⟨?_, rfl⟩
    simp only [CreateErrorResult]
    decide
  · intro id rt now body hok
    unfold validateResponse
    rw [hes, hec]
    rw [if_neg (by omega)]
    rw [if_pos (by simp [hok])]
    refine ⟨?_, rfl⟩
    simp only [CreateErrorResult]
    decide
  · intro id rt now
    unfold httpRequestFailedObservation
    simp only [CreateErrorResult]
    decide

/-- C3 witness: the amended decision table applied to a concrete
configuration and concrete bodies. -/
theorem httpProbe_decision_table_witness :
    (validateResponse 7 200 "xx ok xx"
      { method := "GET", headers := [], body := "", expectedStatus := 200,
        expectedContent := "ok", followRedirects := true, verifySSL := true,
        timeoutSeconds := 10 } 12 99).status = CheckStatusUp ∧
    (validateResponse 7 200 "nope"
      { method := "GET", headers := [], body := "", expectedStatus := 200,
        expectedContent := "ok", followRedirects := true, verifySSL := true,
        timeoutSeconds := 10 } 12 99).status = CheckStatusError := by
  constructor
  · exact ((httpProbe_decision_table _ rfl rfl).1 7 12 99 "xx ok xx" (by decide)).1
  · exact ((httpProbe_decision_table _ rfl rfl).2.2.1 7 12 99 "nope" (by decide)).1

/-- C1: with every other field valid (name, type, target, config),
`ValidateCheck` accepts exactly the interval/timeout pairs with
`5 ≤ i ≤ 86400`, `1 ≤ t ≤ 300` and `t < i`; in particular at
`interval_seconds = 30`, `timeout_seconds = 30` is rejected and
`timeout_seconds = 29` accepted. -/
theorem validateCheck_interval_timeout_iff
    (httpD : Option HTTPDefaultsConfig) (pingD : Option PingDefaultsConfig)
    (c : Check)
    (hname1 : c.name ≠ "") (hname2 : goLen c.name ≤ 100)
    (htype : IsValidCheckType c.ctype = true)
    (htarget1 : c.target ≠ "")
    (htarget : validateCheckTarget c.ctype c.target = .ok ())
    (hconfig : ∃ s, validateCheckConfig httpD pingD c.ctype c.config = .ok s) :
    ((∃ c2, ValidateCheck httpD pingD c = .ok c2) ↔
      (5 ≤ c.intervalSeconds ∧ c.intervalSeconds ≤ 86400 ∧
        1 ≤ c.timeoutSeconds ∧ c.timeoutSeconds ≤ 300 ∧
        c.timeoutSeconds < c.intervalSeconds)) ∧
    (c.intervalSeconds = 30 →
      ((c.timeoutSeconds = 30 → ¬∃ c2, ValidateCheck httpD pingD c = .ok c2) ∧
        (c.timeoutSeconds = 29 → ∃ c2, ValidateCheck httpD pingD c = .ok c2))) := by
  obtain ⟨cfgStr, hcfg⟩ := hconfig
  have main : (∃ c2, ValidateCheck httpD pingD c = .ok c2) ↔
      (5 ≤ c.intervalSeconds ∧ c.intervalSeconds ≤ 86400 ∧
        1 ≤ c.timeoutSeconds ∧ c.timeoutSeconds ≤ 300 ∧
        c.timeoutSeconds < c.intervalSeconds) := by
    unfold ValidateCheck
    rw [if_neg hname1, if_neg (by omega), if_neg (by simp [htype]),
      if_neg htarget1]
    simp only [htarget, hcfg]
    split_ifs <;> simp <;> omega
  refine ⟨main, fun hi => ⟨fun ht hex => ?_, fun ht => main.mpr (by omega)⟩⟩
  have := main.mp hex
  omega

/-- C1 witness: the acceptance test applied to a concrete ping check on
`8.8.8.8` — timeout 29 of interval 30 accepted, timeout 30 rejected. -/
theorem validateCheck_interval_timeout_iff_witness :
    (∃ c2, ValidateCheck none none
      { id := 1, enabled := true, name := "api", ctype := "ping", config := "",
        target := "8.8.8.8", intervalSeconds := 30, timeoutSeconds := 29 } =
        .ok c2) ∧
    ¬(∃ c2, ValidateCheck none none
      { id := 1, enabled := true, name := "api", ctype := "ping", config := "",
        target := "8.8.8.8", intervalSeconds := 30, timeoutSeconds := 30 } =
        .ok c2) := by
  constructor
  · exact ((validateCheck_interval_timeout_iff none none
      { id := 1, enabled := true, name := "api", ctype := "ping", config := "",
        target := "8.8.8.8", intervalSeconds := 30, timeoutSeconds := 29 }
      (by decide) (by decide) (by decide) (by decide) (by exact rfl)
      ⟨"\x7b\"count\":3,\"interval\":300,\"size\":56\x7d", by exact rfl⟩).2 rfl).2 rfl
  · exact ((validateCheck_interval_timeout_iff none none
      { id := 1, enabled := true, name := "api", ctype := "ping", config := "",
        target := "8.8.8.8", intervalSeconds := 30, timeoutSeconds := 30 }
      (by decide) (by decide) (by decide) (by decide) (by exact rfl)
      ⟨"\x7b\"count\":3,\"interval\":300,\"size\":56\x7d", by exact rfl⟩).2 rfl).1 rfl

/-- C6 counterexample: an alert bound to exactly one owner, with an
owner-appropriate condition type and no threshold needed, is still rejected
when its `type` is unsupported — `ValidateAlert` also validates `type` (and
`config`), so the claim's "accepts if and only if" is too weak as stated. -/
theorem validateAlert_also_checks_type :
    ValidateAlert
      { id := 1, checkID := some 1, agentID := none, atype := "bogus",
        config := "", conditionType := "status_down", conditionValue := none,
        enabled := true } =
      .error "unsupported alert type: bogus" ∧
    ((some 1 : Option Int).isSome ≠ (none : Option Int).isSome) ∧
    ["status_down", "status_timeout", "status_error"].contains "status_down"
      = true ∧
    needsConditionValue "status_down" = false := by
  exact ⟨rfl, by decide, by decide, by decide⟩

/-- C6 (amended): for an alert whose `type` is supported and whose `config`
passes the per-type validation, `ValidateAlert` accepts iff exactly one of
`check_id`/`agent_id` is set, the condition type belongs to the owner's
set, and — when the condition is one of the three `*_high` thresholds — a
condition value in `[0, 100]` is present; for all other condition types the
value is never range-checked. -/
theorem validateAlert_accepts_iff (alert : Alert)
    (htype : IsValidAlertType alert.atype = true)
    (hconfig : validateAlertConfig alert.atype alert.config = .ok ()) :
    ValidateAlert alert = .ok () ↔
      ((alert.checkID.isSome ≠ alert.agentID.isSome) ∧
        (alert.checkID.isSome = true →
          ["status_down", "status_timeout", "status_error"].contains
            alert.conditionType = true) ∧
        (alert.agentID.isSome = true →
          ["cpu_usage_high", "memory_usage_high", "disk_usage_high",
            "agent_offline"].contains alert.conditionType = true) ∧
        (needsConditionValue alert.conditionType = true →
          ∃ v, alert.conditionValue = some v ∧ 0 ≤ v ∧ v ≤ 100)) := by
  cases hC : alert.checkID.isSome <;> cases hA : alert.agentID.isSome
  · simp [ValidateAlert, hC, hA]
  · -- agent-owned alert
    by_cases hin : ["cpu_usage_high", "memory_usage_high", "disk_usage_high",
        "agent_offline"].contains alert.conditionType = true
    · have hin2 : alert.conditionType = "cpu_usage_high" ∨
          alert.conditionType = "memory_usage_high" ∨
          alert.conditionType = "disk_usage_high" ∨
          alert.conditionType = "agent_offline" := by simpa using hin
      by_cases hneed : needsConditionValue alert.conditionType = true
      · cases hv : alert.conditionValue with
        | none =>
          simp [ValidateAlert, validateAlertConditionType, hC, hA, htype,
            hconfig, hin, hin2, hneed, hv]
        | some v =>
          by_cases hrange : v < 0 ∨ v > 100
          · simp only [ValidateAlert, validateAlertConditionType, hC, hA]
            simp [htype, hconfig, hin, hin2, hneed, hv, hrange]
            intro h0
            rcases hrange with h | h
            · exact absurd h0 (not_le.mpr h)
            · exact h
          · have hr := hrange
            push_neg at hr
            simp [ValidateAlert, validateAlertConditionType, hC, hA, htype,
              hconfig, hin, hin2, hneed, hv, hrange, hr.1, hr.2]
      · simp [ValidateAlert, validateAlertConditionType, hC, hA, htype,
          hconfig, hin, hin2, hneed]
    · have hin2 : ¬(alert.conditionType = "cpu_usage_high" ∨
          alert.conditionType = "memory_usage_high" ∨
          alert.conditionType = "disk_usage_high" ∨
          alert.conditionType = "agent_offline") := by simpa using hin
      simp [ValidateAlert, validateAlertConditionType, hC, hA, htype, hin,
        hin2]
  · -- check-owned alert
    by_cases hin : ["status_down", "status_timeout", "status_error"].contains
        alert.conditionType = true
    · have hin2 : alert.conditionType = "status_down" ∨
          alert.conditionType = "status_timeout" ∨
          alert.conditionType = "status_error" := by simpa using hin
      have hneed : needsConditionValue alert.conditionType = false := by
        rcases hin2 with h | h | h <;> rw [h] <;> decide
      simp [ValidateAlert, validateAlertConditionType, hC, hA, htype,
        hconfig, hin, hin2, hneed]
    · have hin2 : ¬(alert.conditionType = "status_down" ∨
          alert.conditionType = "status_timeout" ∨
          alert.conditionType = "status_error") := by simpa using hin
      simp [ValidateAlert, validateAlertConditionType, hC, hA, htype, hin,
        hin2]
  · simp [ValidateAlert, hC, hA]

/-- C6 witness: the amended equivalence applied to concrete alerts — a
check-owned `status_down` Telegram alert without a condition value is
accepted, and an agent-owned `cpu_usage_high` alert with value 80 is
accepted. -/
theorem validateAlert_accepts_iff_witness :
    ValidateAlert
      { id := 1, checkID := some 1, agentID := none, atype := "telegram",
        config := "", conditionType := "status_down", conditionValue := none,
        enabled := true } = .ok () ∧
    ValidateAlert
      { id := 2, checkID := none, agentID := some 2, atype := "telegram",
        config := "", conditionType := "cpu_usage_high",
        conditionValue := some 80, enabled := true } = .ok () := by
  constructor
  · exact (validateAlert_accepts_iff
      { id := 1, checkID := some 1, agentID := none, atype := "telegram",
        config := "", conditionType := "status_down", conditionValue := none,
        enabled := true } (by decide) (by exact rfl)).mpr
      (by refine ⟨by decide, fun _ => by decide, by simp, fun h => by cases h⟩)
  · exact (validateAlert_accepts_iff
      { id := 2, checkID := none, agentID := some 2, atype := "telegram",
        config := "", conditionType := "cpu_usage_high",
        conditionValue := some 80, enabled := true } (by decide)
      (by exact rfl)).mpr
      (by exact ⟨by decide, by simp, fun _ => by decide,
        fun _ => ⟨80, rfl, by norm_num, by norm_num⟩⟩)

/-- C2 witness: the classification applied at concrete error strings. -/
theorem determineErrorStatus_total_classification_witness :
    DetermineErrorStatus "context deadline exceeded" = CheckStatusTimeout ∧
    DetermineErrorStatus "dial tcp: connection refused" = CheckStatusDown ∧
    DetermineErrorStatus "some other failure" = CheckStatusError := by
  refine ⟨?_, ?_, ?_⟩
  · exact (determineErrorStatus_total_classification
      "context deadline exceeded").2.1.mpr (Or.inr (by decide))
  · exact (determineErrorStatus_total_classification
      "dial tcp: connection refused").2.2.1.mpr
      ⟨by rintro (h | h) <;> revert h <;> decide, Or.inl (by decide)⟩
  · exact (determineErrorStatus_total_classification
      "some other failure").2.2.2.1.mpr
      ⟨by rintro (h | h) <;> revert h <;> decide,
       by rintro (h | h | h | h) <;> revert h <;> decide⟩

/-- C4 witness: an enabled agent with `interval_seconds = 60` last seen
200 s ago is offline on the tick, gets exactly one synthetic zeroed
history row, and a later tick on the updated agent appends a second row. -/
theorem agentLiveness_offline_tick_witness :
    (checkOfflineAgentStep (1000 * nsPerSecond)
      { id := 5, name := "a", enabled := true, intervalSeconds := 60,
        authToken := "t", status := "online",
        lastSeenAt := some (800 * nsPerSecond) }).2 =
      [offlineAgentHistory (1000 * nsPerSecond)
        { id := 5, name := "a", enabled := true, intervalSeconds := 60,
          authToken := "t", status := "online",
          lastSeenAt := some (800 * nsPerSecond) }] ∧
    ((checkOfflineAgentStep (1000 * nsPerSecond)
      { id := 5, name := "a", enabled := true, intervalSeconds := 60,
        authToken := "t", status := "online",
        lastSeenAt := some (800 * nsPerSecond) }).2 ++
     (checkOfflineAgentStep (2000 * nsPerSecond)
       (checkOfflineAgentStep (1000 * nsPerSecond)
         { id := 5, name := "a", enabled := true, intervalSeconds := 60,
           authToken := "t", status := "online",
           lastSeenAt := some (800 * nsPerSecond) }).1).2).length = 2 := by
  constructor
  · exact ((agentLiveness_offline_tick (1000 * nsPerSecond) (2000 * nsPerSecond)
      { id := 5, name := "a", enabled := true, intervalSeconds := 60,
        authToken := "t", status := "online",
        lastSeenAt := some (800 * nsPerSecond) }).2.1 (by decide)).1
  · exact (agentLiveness_offline_tick (1000 * nsPerSecond) (2000 * nsPerSecond)
      { id := 5, name := "a", enabled := true, intervalSeconds := 60,
        authToken := "t", status := "online",
        lastSeenAt := some (800 * nsPerSecond) }).2.2.2 (by decide) (by decide)

/-! ### Canonical JSON round trip (supporting lemmas for C7)

The lemmas below show that re-parsing the canonical output of
`json.Marshal` recovers exactly the marshalled struct, field by field,
which is what the idempotency of config validation rests on. -/

theorem toListStr_append (a b : String) :
    (a ++ b).toList = a.toList ++ b.toList := String.data_append a b

theorem fuel_succ {f : Nat} (hf : 0 < f) : ∃ g, f = g + 1 :=
  ⟨f - 1, by omega⟩

theorem escapeChar_ne_nil (c : Char) : escapeChar c ≠ [] := by
  unfold escapeChar
  split_ifs <;> simp

theorem escape_append_len (c : Char) (X : List Char) :
    X.length < (escapeChar c ++ X).length := by
  have h := List.length_pos.mpr (escapeChar_ne_nil c)
  simp only [List.length_append]
  omega

theorem hexVal_hexDigit (k : Nat) (hk : k < 16) : hexVal (hexDigit k) = some k := by
  interval_cases k <;> rfl

theorem hex4Val_00 (n : Nat) (hn : n < 256) :
    hex4Val '0' '0' (hexDigit (n / 16)) (hexDigit (n % 16)) = some n := by
  have h1 := hexVal_hexDigit (n / 16) (by omega)
  have h2 := hexVal_hexDigit (n % 16) (Nat.mod_lt _ (by omega))
  simp only [hex4Val, h1, h2, show hexVal '0' = some 0 from rfl,
    Option.bind_eq_bind, Option.some_bind, Option.pure_def, Option.some.injEq]
  omega

theorem parseOneChar_escapeChar (c : Char) (X : List Char) :
    (parseOneChar (escapeChar c ++ X)).map (fun r => (r.1, r.2.1)) =
      some (some c, X) := by
  by_cases h1 : c = '"'
  · subst h1; rfl
  by_cases h2 : c = '\\'
  · subst h2; rfl
  by_cases h3 : c = '\n'
  · subst h3; rfl
  by_cases h4 : c = '\r'
  · subst h4; rfl
  by_cases h5 : c = '\t'
  · subst h5; rfl
  by_cases h6 : c = '<' ∨ c = '>' ∨ c = '&'
  · rcases h6 with h | h | h <;> (subst h; rfl)
  have hb6 : ¬((c = '<' || c = '>' || c = '&') = true) := by
    simp only [Bool.or_eq_true, decide_eq_true_eq]
    rw [or_assoc]
    exact h6
  by_cases h7 : c.toNat < 0x20
  · have he : escapeChar c =
        ['\\', 'u', '0', '0', hexDigit (c.toNat / 16), hexDigit (c.toNat % 16)] := by
      unfold escapeChar
      rw [if_neg h1, if_neg h2, if_neg h3, if_neg h4, if_neg h5, if_neg hb6,
        if_pos h7]
    have hv : hex4Val '0' '0' (hexDigit (c.toNat / 16)) (hexDigit (c.toNat % 16))
        = some c.toNat := hex4Val_00 c.toNat (by omega)
    have hns : ¬(0xD800 ≤ c.toNat) := by omega
    rw [he]
    simp only [List.cons_append]
    unfold parseOneChar
    simp [hv, hns, scalarOfUnit]
  by_cases h8 : c.toNat = 0x2028 ∨ c.toNat = 0x2029
  · have hb8 : (c.toNat = 0x2028 || c.toNat = 0x2029) = true := by
      simp only [Bool.or_eq_true, decide_eq_true_eq]
      exact h8
    have he : escapeChar c = ['\\', 'u', '2', '0', '2', hexDigit (c.toNat % 16)] := by
      unfold escapeChar
      rw [if_neg h1, if_neg h2, if_neg h3, if_neg h4, if_neg h5, if_neg hb6,
        if_neg h7, if_pos hb8]
    have hc := (Char.ofNat_toNat c).symm
    rw [he]
    rcases h8 with h | h <;> (rw [h] at hc; rw [h, hc]; rfl)
  · have hb8 : ¬((c.toNat = 0x2028 || c.toNat = 0x2029) = true) := by
      simp only [Bool.or_eq_true, decide_eq_true_eq]
      exact h8
    have he : escapeChar c = [c] := by
      unfold escapeChar
      rw [if_neg h1, if_neg h2, if_neg h3, if_neg h4, if_neg h5, if_neg hb6,
        if_neg h7, if_neg hb8]
    rw [he]
    simp only [List.cons_append, List.nil_append]
    unfold parseOneChar
    simp [h1, h2, h7]

theorem parseStrBody_cons_escape (c : Char) (R : List Char) :
    parseStrBody (escapeChar c ++ R) =
      (parseStrBody R).map fun p => (c :: p.1, p.2) := by
  have hm := parseOneChar_escapeChar c R
  cases hp : parseOneChar (escapeChar c ++ R) with
  | none => rw [hp] at hm; simp at hm
  | some pr =>
    rw [hp] at hm
    obtain ⟨oc, sub⟩ := pr
    obtain ⟨sv, hlt⟩ := sub
    simp only [Option.map_some', Option.some.injEq, Prod.mk.injEq] at hm
    obtain ⟨hoc, hsv⟩ := hm
    subst hoc
    conv_lhs => rw [parseStrBody.eq_def]
    rw [hp]
    show (parseStrBody sv).map (fun p => (c :: p.1, p.2)) =
      (parseStrBody R).map fun p => (c :: p.1, p.2)
    rw [hsv]

theorem parseStrBody_escapes (s : List Char) (X : List Char) :
    parseStrBody (s.flatMap escapeChar ++ '"' :: X) = some (s, X) := by
  induction s with
  | nil =>
    simp only [List.flatMap_nil, List.nil_append]
    unfold parseStrBody
    rfl
  | cons c t ih =>
    have harr : (c :: t).flatMap escapeChar ++ '"' :: X =
        escapeChar c ++ (t.flatMap escapeChar ++ '"' :: X) := by
      simp [List.flatMap_cons, List.append_assoc]
    rw [harr, parseStrBody_cons_escape, ih]
    rfl

theorem digitChar_ofNat (r : Nat) (h : r < 10) :
    isDigitChar (Char.ofNat ('0'.toNat + r)) = true ∧
    (Char.ofNat ('0'.toNat + r)).toNat = '0'.toNat + r ∧
    (1 ≤ r → Char.ofNat ('0'.toNat + r) ≠ '0') := by
  interval_cases r <;> exact ⟨by decide, by decide, by decide⟩

theorem natDigitsAux_spec (fuel : Nat) : ∀ m : Nat, m ≤ fuel →
    natDigitsAux fuel m ≠ [] ∧
    (natDigitsAux fuel m).all isDigitChar = true ∧
    (natDigitsAux fuel m).foldl
      (fun acc c => acc * 10 + (c.toNat - '0'.toNat)) 0 = m ∧
    (1 ≤ m → (natDigitsAux fuel m).head? ≠ some '0') := by
  induction fuel with
  | zero =>
    intro m hm
    interval_cases m
    refine ⟨by simp [natDigitsAux], ?_, ?_, ?_⟩ <;> decide
  | succ f ih =>
    intro m hm
    by_cases h10 : m < 10
    · unfold natDigitsAux
      rw [if_pos h10]
      obtain ⟨hd1, hd2, hd3⟩ := digitChar_ofNat m h10
      refine ⟨by simp, ?_, ?_, fun h1 => ?_⟩
      · simp only [List.all_cons, List.all_nil, Bool.and_true, hd1]
      · simp only [List.foldl_cons, List.foldl_nil, hd2,
          Nat.add_sub_cancel_left]
        omega
      · simp only [List.head?_cons, ne_eq, Option.some.injEq]
        exact hd3 h1
    · have hlt : m / 10 < m := Nat.div_lt_self (by omega) (by omega)
      have hle : m / 10 ≤ f := by omega
      have hmod : m % 10 < 10 := Nat.mod_lt _ (by omega)
      obtain ⟨hne, hall, hval, hhead⟩ := ih (m / 10) hle
      obtain ⟨hd1, hd2, _⟩ := digitChar_ofNat (m % 10) hmod
      unfold natDigitsAux
      rw [if_neg h10]
      refine ⟨by simp, ?_, ?_, fun _ => ?_⟩
      · simp only [List.all_append, List.all_cons, List.all_nil, Bool.and_true,
          hall, hd1, Bool.true_and]
      · rw [List.foldl_append]
        simp only [List.foldl_cons, List.foldl_nil, hval, hd2,
          Nat.add_sub_cancel_left]
        omega
      · have h110 : 1 ≤ m / 10 := by omega
        have hh := hhead h110
        cases hds : (natDigitsAux f (m / 10)).head? with
        | none => exact absurd (List.head?_eq_none_iff.mp hds) hne
        | some d =>
          rw [hds] at hh
          rw [List.head?_append, hds]
          simpa using hh

theorem natDigits_spec (n : Nat) :
    natDigits n ≠ [] ∧
    (natDigits n).all isDigitChar = true ∧
    (natDigits n).foldl
      (fun acc c => acc * 10 + (c.toNat - '0'.toNat)) 0 = n ∧
    (1 ≤ n → (natDigits n).head? ≠ some '0') :=
  natDigitsAux_spec n n le_rfl

theorem digit_not_special (c : Char) (h : isDigitChar c = true) :
    isJsonWs c = false ∧ c ≠ 'n' ∧ c ≠ 't' ∧ c ≠ 'f' ∧ c ≠ '"' ∧ c ≠ '{' ∧
      c ≠ '[' ∧ c ≠ '-' ∧ c ≠ '.' ∧ isNumChar c = true := by
  have hws : isJsonWs c = false := by
    by_contra hb
    rw [Bool.not_eq_false] at hb
    simp only [isJsonWs, Bool.or_eq_true, decide_eq_true_eq] at hb
    rcases hb with ((h' | h') | h') | h' <;>
      (subst h'; exact absurd h (by decide))
  have hnum : isNumChar c = true := by
    have h' : ('0' ≤ c && c ≤ '9' : Bool) = true := h
    simp [isNumChar, h']
  refine ⟨hws, ?_, ?_, ?_, ?_, ?_, ?_, ?_, ?_, hnum⟩ <;>
    (intro h'; subst h'; exact absurd h (by decide))

theorem skipWs_cons_false (c : Char) (t : List Char) (h : isJsonWs c = false) :
    skipWs (c :: t) = c :: t := by
  simp [skipWs, h]

theorem takeWhile_append_all {p : Char → Bool} (A X : List Char)
    (hA : A.all p = true) (hX : ∀ ch, X.head? = some ch → p ch = false) :
    (A ++ X).takeWhile p = A := by
  induction A with
  | nil =>
    cases X with
    | nil => rfl
    | cons x xs =>
      have hx := hX x rfl
      simp [List.takeWhile_cons, hx]
  | cons a t ih =>
    simp only [List.all_cons, Bool.and_eq_true] at hA
    simp [List.takeWhile_cons, hA.1, ih hA.2]

theorem jsonNumOk_digits (ds : List Char) (h1 : ds ≠ [])
    (h2 : ds.all isDigitChar = true)
    (h3 : ds.head? = some '0' → ds = ['0']) : jsonNumOk ds = true := by
  cases ds with
  | nil => exact absurd rfl h1
  | cons c t =>
    simp only [List.all_cons, Bool.and_eq_true] at h2
    obtain ⟨hc, ht⟩ := h2
    obtain ⟨_, _, _, _, _, _, _, hcm, _, _⟩ := digit_not_special c hc
    by_cases h0 : c = '0'
    · subst h0
      have ht0 : t = [] := by simpa using h3 rfl
      subst ht0
      rfl
    · have hdrop : t.dropWhile isDigitChar = [] := by
        rw [List.dropWhile_eq_nil_iff]
        intro x hx
        exact List.all_eq_true.mp ht x hx
      simp [jsonNumOk, hcm, h0, hc, hdrop]

theorem marshalInt_toList_nonneg (n : Int) (hn : 0 ≤ n) :
    (marshalInt n).toList = natDigits n.natAbs := by
  unfold marshalInt
  rw [if_neg (by omega)]
  exact List.toList_asString _

theorem jnumToInt_marshalInt (n : Int) (hn : 0 ≤ n) :
    jnumToInt (marshalInt n) = some n := by
  obtain ⟨hne, hall, hval, _⟩ := natDigits_spec n.natAbs
  unfold jnumToInt
  rw [marshalInt_toList_nonneg n hn]
  obtain ⟨c, t, hds⟩ : ∃ c t, natDigits n.natAbs = c :: t := by
    cases h : natDigits n.natAbs with
    | nil => exact absurd h hne
    | cons a b => exact ⟨a, b, rfl⟩
  rw [hds] at hall hval ⊢
  have hc : isDigitChar c = true := by
    simp only [List.all_cons, Bool.and_eq_true] at hall
    exact hall.1
  obtain ⟨_, _, _, _, _, _, _, hcm, _, _⟩ := digit_not_special c hc
  simp only [hcm, if_false, ite_false, reduceIte]
  simp only [ne_eq, reduceCtorEq, not_false_eq_true, hall, Bool.and_self,
    if_true, hval, ite_true]
  rw [Int.natAbs_of_nonneg hn]
  simp

theorem parseNum_marshalInt (n : Int) (hn : 0 ≤ n) (X : List Char)
    (hX : ∀ ch, X.head? = some ch → isNumChar ch = false) :
    parseNum ((marshalInt n).toList ++ X) = some (marshalInt n, X) := by
  obtain ⟨hne, hall, _, hhead⟩ := natDigits_spec n.natAbs
  have hallnum : (natDigits n.natAbs).all isNumChar = true := by
    rw [List.all_eq_true] at hall ⊢
    intro x hx
    exact (digit_not_special x (hall x hx)).2.2.2.2.2.2.2.2.2
  have htw : ((natDigits n.natAbs) ++ X).takeWhile isNumChar =
      natDigits n.natAbs := takeWhile_append_all _ _ hallnum hX
  have hok : jsonNumOk (natDigits n.natAbs) = true := by
    apply jsonNumOk_digits _ hne hall
    intro hh
    by_cases hz : n.natAbs = 0
    · rw [hz]
      rfl
    · exact absurd hh (hhead (by omega))
  have hm : marshalInt n = (natDigits n.natAbs).asString := by
    unfold marshalInt
    rw [if_neg (by omega)]
  unfold parseNum
  rw [marshalInt_toList_nonneg n hn, htw]
  simp only [hne, hok, ne_eq, not_false_eq_true, Bool.and_self, if_true,
    ite_true, List.drop_left, hm]
  simp

theorem marshalString_toList (s : String) :
    (marshalString s).toList = '"' :: (s.toList.flatMap escapeChar ++ ['"']) := by
  have hq : ("\"" : String).toList = ['"'] := rfl
  unfold marshalString
  rw [toListStr_append, toListStr_append, List.toList_asString, hq]
  simp [List.append_assoc]

theorem parseVal_jstr (s : String) (X : List Char) (f : Nat) (hf : 0 < f) :
    parseVal f ((marshalString s).toList ++ X) = some (.jstr s, X) := by
  obtain ⟨g, rfl⟩ := fuel_succ (show 0 < f by omega)
  rw [marshalString_toList]
  simp only [List.cons_append, List.append_assoc, List.singleton_append]
  unfold parseVal
  rw [skipWs_cons_false _ _ (by decide)]
  simp [parseStrBody_escapes, String.asString_toList]
  rfl

theorem parseVal_jbool (b : Bool) (X : List Char) (f : Nat) (hf : 0 < f) :
    parseVal f ((marshalBool b).toList ++ X) = some (.jbool b, X) := by
  obtain ⟨g, rfl⟩ := fuel_succ (show 0 < f by omega)
  cases b
  · have h : (marshalBool false).toList = ['f', 'a', 'l', 's', 'e'] := rfl
    rw [h]
    simp only [List.cons_append, List.nil_append]
    unfold parseVal
    rw [skipWs_cons_false _ _ (by decide)]
    simp [List.isPrefixOf]
  · have h : (marshalBool true).toList = ['t', 'r', 'u', 'e'] := rfl
    rw [h]
    simp only [List.cons_append, List.nil_append]
    unfold parseVal
    rw [skipWs_cons_false _ _ (by decide)]
    simp [List.isPrefixOf]

theorem parseVal_jnum (n : Int) (X : List Char) (f : Nat) (hn : 0 ≤ n)
    (hf : 0 < f) (hX : ∀ ch, X.head? = some ch → isNumChar ch = false) :
    parseVal f ((marshalInt n).toList ++ X) = some (.jnum (marshalInt n), X) := by
  obtain ⟨g, rfl⟩ := fuel_succ (show 0 < f by omega)
  obtain ⟨hne, hall, _, _⟩ := natDigits_spec n.natAbs
  obtain ⟨c, t, hds⟩ : ∃ c t, natDigits n.natAbs = c :: t := by
    cases h : natDigits n.natAbs with
    | nil => exact absurd h hne
    | cons a b => exact ⟨a, b, rfl⟩
  have hc : isDigitChar c = true := by
    rw [hds] at hall
    simp only [List.all_cons, Bool.and_eq_true] at hall
    exact hall.1
  obtain ⟨hws, hn1, hn2, hn3, hn4, hn5, hn6, _, _, _⟩ := digit_not_special c hc
  have hp := parseNum_marshalInt n hn X hX
  rw [marshalInt_toList_nonneg n hn] at hp ⊢
  rw [hds] at hp ⊢
  simp only [List.cons_append]
  unfold parseVal
  rw [skipWs_cons_false _ _ hws]
  simp only [hn1, hn2, hn3, hn4, hn5, hn6, if_false, ite_false, reduceIte]
  rw [← List.cons_append, hp]
  rfl

theorem asString_data (s : String) : s.data.asString = s := rfl

theorem parseObjFields_render (fl : List (String × List Char × JValue)) :
    fl ≠ [] →
    (∀ e ∈ fl, ∀ (X : List Char) (f : Nat),
        (X.head? = some ',' ∨ X.head? = some '}') →
        e.2.1.length < f →
        parseVal f (e.2.1 ++ X) = some (e.2.2, X)) →
    ∀ (acc : List (String × JValue)) (X : List Char) (fuel : Nat),
      (fieldsRender fl).length < fuel →
      parseObjFields fuel (fieldsRender fl ++ '}' :: X) acc =
        some (.jobj (acc ++ fieldsView fl), X) := by
  induction fl with
  | nil => intro h; exact absurd rfl h
  | cons e t ih =>
    obtain ⟨k, rv, jv⟩ := e
    intro _ hv acc X fuel hfuel
    obtain ⟨g, rfl⟩ := fuel_succ (show 0 < fuel by omega)
    cases t with
    | nil =>
      have hfr : fieldsRender [(k, rv, jv)] =
          (marshalString k).toList ++ ':' :: rv := rfl
      rw [hfr] at hfuel ⊢
      rw [marshalString_toList] at hfuel ⊢
      have hlenrv : rv.length < g := by
        simp only [List.length_append, List.length_cons] at hfuel
        omega
      have hval2 := hv (k, rv, jv) (List.mem_cons_self _ _) ('}' :: X) g
        (Or.inr rfl) hlenrv
      simp only [List.cons_append, List.append_assoc, List.singleton_append]
      unfold parseObjFields
      rw [skipWs_cons_false _ _ (by decide)]
      simp [parseStrBody_escapes, skipWs, isJsonWs, hval2,
        String.asString_toList, asString_data, fieldsView]
    | cons e2 t2 =>
      have hfr : fieldsRender ((k, rv, jv) :: e2 :: t2) =
          (marshalString k).toList ++ ':' :: rv ++ ',' ::
            fieldsRender (e2 :: t2) := rfl
      rw [hfr] at hfuel ⊢
      rw [marshalString_toList] at hfuel ⊢
      have hlenrv : rv.length < g := by
        simp only [List.length_append, List.length_cons] at hfuel
        omega
      have hlent : (fieldsRender (e2 :: t2)).length < g := by
        simp only [List.length_append, List.length_cons] at hfuel
        omega
      have hval2 := hv (k, rv, jv) (List.mem_cons_self _ _)
        (',' :: (fieldsRender (e2 :: t2) ++ '}' :: X)) g (Or.inl rfl) hlenrv
      have hrec := ih (by simp)
        (fun e he X' f' hx hf' => hv e (List.mem_cons_of_mem _ he) X' f' hx hf')
        (acc ++ [(k, jv)]) X g hlent
      simp only [List.cons_append, List.append_assoc, List.singleton_append]
      unfold parseObjFields
      rw [skipWs_cons_false _ _ (by decide)]
      simp [parseStrBody_escapes, skipWs, isJsonWs, hval2, hrec,
        String.asString_toList, asString_data, fieldsView]

theorem length_eq_toList (s : String) : s.length = s.toList.length := rfl

theorem parseVal_objRender (fl : List (String × List Char × JValue))
    (hne : fl ≠ [])
    (hv : ∀ e ∈ fl, ∀ (X : List Char) (f : Nat),
        (X.head? = some ',' ∨ X.head? = some '}') →
        e.2.1.length < f →
        parseVal f (e.2.1 ++ X) = some (e.2.2, X))
    (X : List Char) (f : Nat)
    (hf : (fieldsRender fl).length + 2 ≤ f) :
    parseVal f ('{' :: (fieldsRender fl ++ '}' :: X)) =
      some (.jobj (fieldsView fl), X) := by
  obtain ⟨g, rfl⟩ := fuel_succ (show 0 < f by omega)
  obtain ⟨ys, hys⟩ : ∃ ys, fieldsRender fl = '"' :: ys := by
    cases fl with
    | nil => exact absurd rfl hne
    | cons e t =>
      obtain ⟨k, rv, jv⟩ := e
      cases t with
      | nil =>
        exact ⟨(k.toList.flatMap escapeChar ++ ['"']) ++ ':' :: rv, by
          rw [show fieldsRender [(k, rv, jv)] =
              (marshalString k).toList ++ ':' :: rv from rfl,
            marshalString_toList]
          rfl⟩
      | cons e2 t2 =>
        exact ⟨(k.toList.flatMap escapeChar ++ ['"']) ++ ':' :: rv ++ ',' ::
            fieldsRender (e2 :: t2), by
          rw [show fieldsRender ((k, rv, jv) :: e2 :: t2) =
              (marshalString k).toList ++ ':' :: rv ++ ',' ::
                fieldsRender (e2 :: t2) from rfl,
            marshalString_toList]
          rfl⟩
  have hobj := parseObjFields_render fl hne hv [] X g (by omega)
  rw [hys, List.cons_append] at hobj ⊢
  unfold parseVal
  rw [skipWs_cons_false _ _ (by decide)]
  simp [skipWs, isJsonWs, hobj]

theorem renderHeaderEntries_toList (m : Headers) :
    (renderHeaderEntries m).toList = fieldsRender (headerFields m) := by
  have hcolon : (":" : String).toList = [':'] := rfl
  induction m with
  | nil => rfl
  | cons kv t ih =>
    obtain ⟨k, v⟩ := kv
    cases t with
    | nil =>
      show (marshalString k ++ ":" ++ marshalString v).toList = _
      rw [toListStr_append, toListStr_append, hcolon]
      simp [headerFields, fieldsRender, List.append_assoc]
    | cons kv2 t2 =>
      show (marshalString k ++ ":" ++ marshalString v ++ "," ++
          renderHeaderEntries (kv2 :: t2)).toList = _
      rw [toListStr_append, toListStr_append, toListStr_append,
        toListStr_append, hcolon, ih]
      have hcomma : ("," : String).toList = [','] := rfl
      rw [hcomma]
      have hshape : headerFields ((k, v) :: kv2 :: t2) =
          (k, (marshalString v).toList, JValue.jstr v) ::
            (kv2.1, (marshalString kv2.2).toList, JValue.jstr kv2.2) ::
              headerFields t2 := rfl
      rw [hshape]
      show _ = (marshalString k).toList ++ ':' :: (marshalString v).toList ++
        ',' :: fieldsRender ((kv2.1, (marshalString kv2.2).toList,
          JValue.jstr kv2.2) :: headerFields t2)
      have hshape2 : headerFields (kv2 :: t2) =
          (kv2.1, (marshalString kv2.2).toList, JValue.jstr kv2.2) ::
            headerFields t2 := rfl
      rw [← hshape2]
      simp [List.append_assoc]

theorem marshalHeaders_toList (m : Headers) :
    (marshalHeaders m).toList =
      '{' :: (fieldsRender (headerFields m) ++ ['}']) := by
  have h1 : ("\x7b" : String).toList = ['{'] := rfl
  have h2 : ("\x7d" : String).toList = ['}'] := rfl
  unfold marshalHeaders
  rw [toListStr_append, toListStr_append, renderHeaderEntries_toList, h1, h2]
  simp [List.append_assoc]

theorem parseVal_headers (m : Headers) (X : List Char) (f : Nat)
    (hf : (marshalHeaders m).toList.length < f) :
    parseVal f ((marshalHeaders m).toList ++ X) =
      some (.jobj (fieldsView (headerFields m)), X) := by
  cases m with
  | nil =>
    obtain ⟨g, rfl⟩ := fuel_succ (show 0 < f by omega)
    have h : (marshalHeaders ([] : Headers)).toList = ['{', '}'] := rfl
    rw [h]
    simp only [List.cons_append, List.nil_append]
    unfold parseVal
    rw [skipWs_cons_false _ _ (by decide)]
    simp [skipWs, isJsonWs, headerFields, fieldsView]
  | cons kv t =>
    rw [marshalHeaders_toList] at hf ⊢
    simp only [List.cons_append, List.append_assoc, List.singleton_append]
    refine parseVal_objRender (headerFields (kv :: t)) (by simp [headerFields])
      ?_ X f ?_
    · intro e he X' f' hx hf'
      simp only [headerFields, List.mem_map] at he
      obtain ⟨kv', _, rfl⟩ := he
      exact parseVal_jstr kv'.2 X' f' (by omega)
    · simp only [List.length_cons, List.length_append] at hf
      omega

theorem marshalHTTPCheckConfig_toList (cfg : HTTPCheckConfig) :
    (marshalHTTPCheckConfig cfg).toList =
      '{' :: (fieldsRender (httpFields cfg) ++ ['}']) := by
  have t1 : ("\x7b\"method\":" : String).toList =
    ['{', '"', 'm', 'e', 't', 'h', 'o', 'd', '"', ':'] := rfl
  have t2 : (",\"headers\":" : String).toList =
    [',', '"', 'h', 'e', 'a', 'd', 'e', 'r', 's', '"', ':'] := rfl
  have t3 : (",\"body\":" : String).toList =
    [',', '"', 'b', 'o', 'd', 'y', '"', ':'] := rfl
  have t4 : (",\"expected_status\":" : String).toList =
    [',', '"', 'e', 'x', 'p', 'e', 'c', 't', 'e', 'd', '_', 's', 't', 'a',
     't', 'u', 's', '"', ':'] := rfl
  have t5 : (",\"expected_content\":" : String).toList =
    [',', '"', 'e', 'x', 'p', 'e', 'c', 't', 'e', 'd', '_', 'c', 'o', 'n',
     't', 'e', 'n', 't', '"', ':'] := rfl
  have t6 : (",\"follow_redirects\":" : String).toList =
    [',', '"', 'f', 'o', 'l', 'l', 'o', 'w', '_', 'r', 'e', 'd', 'i', 'r',
     'e', 'c', 't', 's', '"', ':'] := rfl
  have t7 : (",\"verify_ssl\":" : String).toList =
    [',', '"', 'v', 'e', 'r', 'i', 'f', 'y', '_', 's', 's', 'l', '"', ':'] := rfl
  have t8 : ("\x7d" : String).toList = ['}'] := rfl
  have m1 : (marshalString "method").toList =
    ['"', 'm', 'e', 't', 'h', 'o', 'd', '"'] := rfl
  have m2 : (marshalString "headers").toList =
    ['"', 'h', 'e', 'a', 'd', 'e', 'r', 's', '"'] := rfl
  have m3 : (marshalString "body").toList =
    ['"', 'b', 'o', 'd', 'y', '"'] := rfl
  have m4 : (marshalString "expected_status").toList =
    ['"', 'e', 'x', 'p', 'e', 'c', 't', 'e', 'd', '_', 's', 't', 'a', 't',
     'u', 's', '"'] := rfl
  have m5 : (marshalString "expected_content").toList =
    ['"', 'e', 'x', 'p', 'e', 'c', 't', 'e', 'd', '_', 'c', 'o', 'n', 't',
     'e', 'n', 't', '"'] := rfl
  have m6 : (marshalString "follow_redirects").toList =
    ['"', 'f', 'o', 'l', 'l', 'o', 'w', '_', 'r', 'e', 'd', 'i', 'r', 'e',
     'c', 't', 's', '"'] := rfl
  have m7 : (marshalString "verify_ssl").toList =
    ['"', 'v', 'e', 'r', 'i', 'f', 'y', '_', 's', 's', 'l', '"'] := rfl
  unfold marshalHTTPCheckConfig
  rw [toListStr_append, toListStr_append, toListStr_append, toListStr_append,
    toListStr_append, toListStr_append, toListStr_append, toListStr_append,
    toListStr_append, toListStr_append, toListStr_append, toListStr_append,
    toListStr_append, toListStr_append,
    t1, t2, t3, t4, t5, t6, t7, t8]
  simp only [httpFields, fieldsRender, m1, m2, m3, m4, m5, m6, m7]
  simp [List.append_assoc]

theorem marshalPingCheckConfig_toList (cfg : PingCheckConfig) :
    (marshalPingCheckConfig cfg).toList =
      '{' :: (fieldsRender (pingFields cfg) ++ ['}']) := by
  have t1 : ("\x7b\"count\":" : String).toList =
    ['{', '"', 'c', 'o', 'u', 'n', 't', '"', ':'] := rfl
  have t2 : (",\"interval\":" : String).toList =
    [',', '"', 'i', 'n', 't', 'e', 'r', 'v', 'a', 'l', '"', ':'] := rfl
  have t3 : (",\"size\":" : String).toList =
    [',', '"', 's', 'i', 'z', 'e', '"', ':'] := rfl
  have t4 : ("\x7d" : String).toList = ['}'] := rfl
  have m1 : (marshalString "count").toList =
    ['"', 'c', 'o', 'u', 'n', 't', '"'] := rfl
  have m2 : (marshalString "interval").toList =
    ['"', 'i', 'n', 't', 'e', 'r', 'v', 'a', 'l', '"'] := rfl
  have m3 : (marshalString "size").toList =
    ['"', 's', 'i', 'z', 'e', '"'] := rfl
  unfold marshalPingCheckConfig
  rw [toListStr_append, toListStr_append, toListStr_append, toListStr_append,
    toListStr_append, toListStr_append, t1, t2, t3, t4]
  simp only [pingFields, fieldsRender, m1, m2, m3]
  simp [List.append_assoc]

theorem jsonUnmarshalValue_marshalHTTP (cfg : HTTPCheckConfig)
    (hst : 0 ≤ cfg.expectedStatus) :
    jsonUnmarshalValue (marshalHTTPCheckConfig cfg) =
      some (.jobj (fieldsView (httpFields cfg))) := by
  unfold jsonUnmarshalValue
  rw [length_eq_toList, marshalHTTPCheckConfig_toList]
  have hp := parseVal_objRender (httpFields cfg) (by simp [httpFields]) ?hv []
    (('{' :: (fieldsRender (httpFields cfg) ++ ['}'])).length + 1) ?hlen
  case hv =>
    intro e he X' f' hx hf'
    simp only [httpFields, List.mem_cons, List.not_mem_nil, or_false] at he
    rcases he with rfl | rfl | rfl | rfl | rfl | rfl | rfl
    · exact parseVal_jstr cfg.method X' f' (by omega)
    · exact parseVal_headers cfg.headers X' f' hf'
    · exact parseVal_jstr cfg.body X' f' (by omega)
    · refine parseVal_jnum cfg.expectedStatus X' f' hst (by omega) ?_
      intro ch hch
      rcases hx with hx | hx <;> (rw [hx] at hch; injection hch with h; subst h
                                  decide)
    · exact parseVal_jstr cfg.expectedContent X' f' (by omega)
    · exact parseVal_jbool cfg.followRedirects X' f' (by omega)
    · exact parseVal_jbool cfg.verifySSL X' f' (by omega)
  case hlen => simp
  rw [show fieldsRender (httpFields cfg) ++ ['}'] =
      fieldsRender (httpFields cfg) ++ '}' :: [] from rfl, hp]
  simp [skipWs]

theorem jsonUnmarshalValue_marshalPing (cfg : PingCheckConfig)
    (h1 : 0 ≤ cfg.count) (h2 : 0 ≤ cfg.interval) (h3 : 0 ≤ cfg.size) :
    jsonUnmarshalValue (marshalPingCheckConfig cfg) =
      some (.jobj (fieldsView (pingFields cfg))) := by
  unfold jsonUnmarshalValue
  rw [length_eq_toList, marshalPingCheckConfig_toList]
  have hnum : ∀ (X' : List Char),
      (X'.head? = some ',' ∨ X'.head? = some '}') →
      ∀ ch, X'.head? = some ch → isNumChar ch = false := by
    intro X' hx ch hch
    rcases hx with hx | hx <;> (rw [hx] at hch; injection hch with h; subst h
                                decide)
  have hp := parseVal_objRender (pingFields cfg) (by simp [pingFields]) ?hv []
    (('{' :: (fieldsRender (pingFields cfg) ++ ['}'])).length + 1) ?hlen
  case hv =>
    intro e he X' f' hx hf'
    simp only [pingFields, List.mem_cons, List.not_mem_nil, or_false] at he
    rcases he with rfl | rfl | rfl
    · exact parseVal_jnum cfg.count X' f' h1 (by omega) (hnum X' hx)
    · exact parseVal_jnum cfg.interval X' f' h2 (by omega) (hnum X' hx)
    · exact parseVal_jnum cfg.size X' f' h3 (by omega) (hnum X' hx)
  case hlen => simp
  rw [show fieldsRender (pingFields cfg) ++ ['}'] =
      fieldsRender (pingFields cfg) ++ '}' :: [] from rfl, hp]
  simp [skipWs]

theorem mem_hdrInsert (m : Headers) (k v : String) :
    ∀ x ∈ hdrInsert m k v, x = (k, v) ∨ x ∈ m := by
  induction m with
  | nil =>
    intro x hx
    simp [hdrInsert] at hx
    left
    simp [hx]
  | cons kv t ih =>
    obtain ⟨k0, v0⟩ := kv
    intro x hx
    by_cases h1 : k < k0
    · rw [show hdrInsert ((k0, v0) :: t) k v = (k, v) :: (k0, v0) :: t from by
        simp [hdrInsert, h1]] at hx
      simp only [List.mem_cons] at hx ⊢
      tauto
    · by_cases h2 : k = k0
      · subst h2
        rw [show hdrInsert ((k, v0) :: t) k v = (k, v) :: t from by
          simp [hdrInsert, h1]] at hx
        simp only [List.mem_cons] at hx ⊢
        tauto
      · rw [show hdrInsert ((k0, v0) :: t) k v = (k0, v0) :: hdrInsert t k v
          from by simp [hdrInsert, h1, h2]] at hx
        simp only [List.mem_cons] at hx ⊢
        rcases hx with hx | hx
        · tauto
        · rcases ih x hx with h | h <;> tauto

theorem hdrSortedKeys_insert (m : Headers) (k v : String)
    (h : hdrSortedKeys m) : hdrSortedKeys (hdrInsert m k v) := by
  induction m with
  | nil => simp [hdrInsert, hdrSortedKeys]
  | cons kv t ih =>
    obtain ⟨k0, v0⟩ := kv
    simp only [hdrSortedKeys, List.pairwise_cons] at h
    by_cases h1 : k < k0
    · rw [show hdrInsert ((k0, v0) :: t) k v = (k, v) :: (k0, v0) :: t from by
        simp [hdrInsert, h1]]
      simp only [hdrSortedKeys, List.pairwise_cons]
      refine ⟨?_, h.1, h.2⟩
      intro x hx
      rcases List.mem_cons.mp hx with rfl | hx
      · exact h1
      · exact lt_trans h1 (h.1 x hx)
    · by_cases h2 : k = k0
      · subst h2
        rw [show hdrInsert ((k, v0) :: t) k v = (k, v) :: t from by
          simp [hdrInsert, h1]]
        simp only [hdrSortedKeys, List.pairwise_cons]
        exact ⟨h.1, h.2⟩
      · have h3 : k0 < k :=
          lt_of_le_of_ne (not_lt.mp h1) (fun hh => h2 hh.symm)
        rw [show hdrInsert ((k0, v0) :: t) k v = (k0, v0) :: hdrInsert t k v
          from by simp [hdrInsert, h1, h2]]
        simp only [hdrSortedKeys, List.pairwise_cons]
        refine ⟨?_, ih h.2⟩
        intro x hx
        rcases mem_hdrInsert t k v x hx with rfl | hx
        · exact h3
        · exact h.1 x hx

theorem hdrLookup_insert (m : Headers) (k v k' : String) :
    hdrLookup (hdrInsert m k v) k' =
      if k' = k then some v else hdrLookup m k' := by
  induction m with
  | nil => simp [hdrInsert, hdrLookup]
  | cons kv t ih =>
    obtain ⟨k0, v0⟩ := kv
    by_cases h1 : k < k0
    · rw [show hdrInsert ((k0, v0) :: t) k v = (k, v) :: (k0, v0) :: t from by
        simp [hdrInsert, h1]]
      simp [hdrLookup]
    · by_cases h2 : k = k0
      · subst h2
        rw [show hdrInsert ((k, v0) :: t) k v = (k, v) :: t from by
          simp [hdrInsert, h1]]
        by_cases h3 : k' = k <;> simp [hdrLookup, h3]
      · rw [show hdrInsert ((k0, v0) :: t) k v = (k0, v0) :: hdrInsert t k v
          from by simp [hdrInsert, h1, h2]]
        by_cases h3 : k' = k0
        · subst h3
          simp [hdrLookup, show ¬(k' = k) from fun hh => h2 hh.symm]
        · simp [hdrLookup, h3, ih]

theorem hdrLookup_none (m : Headers) (k : String)
    (h : ∀ x ∈ m, x.1 ≠ k) : hdrLookup m k = none := by
  induction m with
  | nil => rfl
  | cons kv t ih =>
    obtain ⟨k0, v0⟩ := kv
    have hk0 : ¬(k = k0) := fun hh => h (k0, v0) (by simp) (by simp [hh])
    simp only [hdrLookup, if_neg hk0]
    exact ih fun x hx => h x (List.mem_cons_of_mem _ hx)

theorem hdrExt (m1 : Headers) : ∀ (m2 : Headers), hdrSortedKeys m1 →
    hdrSortedKeys m2 → (∀ k, hdrLookup m1 k = hdrLookup m2 k) → m1 = m2 := by
  induction m1 with
  | nil =>
    intro m2 _ _ h
    cases m2 with
    | nil => rfl
    | cons kv t =>
      obtain ⟨k0, v0⟩ := kv
      have := h k0
      simp [hdrLookup] at this
  | cons kv t ih =>
    intro m2 h1 h2 h
    obtain ⟨k0, v0⟩ := kv
    cases m2 with
    | nil =>
      have := h k0
      simp [hdrLookup] at this
    | cons kv2 t2 =>
      obtain ⟨k2, v2⟩ := kv2
      simp only [hdrSortedKeys, List.pairwise_cons] at h1 h2
      rcases lt_trichotomy k0 k2 with hlt | heq | hgt
      · exfalso
        have hL := h k0
        have e1 : hdrLookup ((k0, v0) :: t) k0 = some v0 := by simp [hdrLookup]
        have e2 : hdrLookup ((k2, v2) :: t2) k0 = none := by
          simp only [hdrLookup,
            if_neg (show ¬(k0 = k2) from fun hh => absurd (hh ▸ hlt)
              (lt_irrefl _))]
          exact hdrLookup_none t2 k0
            (fun x hx => ne_of_gt (lt_trans hlt (h2.1 x hx)))
        rw [e1, e2] at hL
        simp at hL
      · subst heq
        have hv := h k0
        simp [hdrLookup] at hv
        subst hv
        have htl : ∀ k, hdrLookup t k = hdrLookup t2 k := by
          intro k
          by_cases hk : k = k0
          · subst hk
            rw [hdrLookup_none t k (fun x hx => ne_of_gt (h1.1 x hx)),
              hdrLookup_none t2 k (fun x hx => ne_of_gt (h2.1 x hx))]
          · have hh := h k
            simpa [hdrLookup, hk] using hh
        rw [ih t2 h1.2 h2.2 htl]
      · exfalso
        have hL := h k2
        have e1 : hdrLookup ((k2, v2) :: t2) k2 = some v2 := by simp [hdrLookup]
        have e2 : hdrLookup ((k0, v0) :: t) k2 = none := by
          simp only [hdrLookup,
            if_neg (show ¬(k2 = k0) from fun hh => absurd (hh ▸ hgt)
              (lt_irrefl _))]
          exact hdrLookup_none t k2
            (fun x hx => ne_of_gt (lt_trans hgt (h1.1 x hx)))
        rw [e1, e2] at hL
        simp at hL

theorem hdrInsertAll_sorted (b es : Headers) (hb : hdrSortedKeys b) :
    hdrSortedKeys (hdrInsertAll b es) := by
  induction es generalizing b with
  | nil => exact hb
  | cons kv t ih => exact ih _ (hdrSortedKeys_insert _ _ _ hb)

theorem sorted_key_nodup (m : Headers) (h : hdrSortedKeys m) :
    m.Pairwise (fun a c : String × String => a.1 ≠ c.1) :=
  h.imp fun hlt => ne_of_lt hlt

theorem hdrLookup_insertAll (b es : Headers) (k : String)
    (hnd : es.Pairwise (fun a c : String × String => a.1 ≠ c.1)) :
    hdrLookup (hdrInsertAll b es) k = (hdrLookup es k).or (hdrLookup b k) := by
  induction es generalizing b with
  | nil => simp [hdrInsertAll, hdrLookup]
  | cons kv t ih =>
    obtain ⟨k0, v0⟩ := kv
    simp only [List.pairwise_cons] at hnd
    show hdrLookup (hdrInsertAll (hdrInsert b k0 v0) t) k = _
    rw [ih _ hnd.2]
    by_cases hk : k = k0
    · subst hk
      rw [hdrLookup_none t k (fun x hx => (hnd.1 x hx).symm)]
      rw [hdrLookup_insert]
      simp [hdrLookup]
    · rw [hdrLookup_insert]
      simp [hdrLookup, hk]

theorem hdrKeySub_insert (b : Headers) (k v : String) :
    hdrKeySub b (hdrInsert b k v) := by
  intro k' hk'
  rw [hdrLookup_insert]
  by_cases h : k' = k
  · simp [h]
  · simp only [if_neg h]
    exact hk'

theorem hdrKeySub_trans {a b c : Headers} (h1 : hdrKeySub a b)
    (h2 : hdrKeySub b c) : hdrKeySub a c :=
  fun k hk => h2 k (h1 k hk)

theorem hdrInsertAll_self (b m : Headers) (hm : hdrSortedKeys m)
    (hb : hdrSortedKeys b) (hsub : hdrKeySub b m) : hdrInsertAll b m = m := by
  apply hdrExt _ _ (hdrInsertAll_sorted b m hb) hm
  intro k
  rw [hdrLookup_insertAll b m k (sorted_key_nodup m hm)]
  cases hml : hdrLookup m k with
  | some v => simp
  | none =>
    simp only [Option.none_or]
    cases hbl : hdrLookup b k with
    | none => rfl
    | some v =>
      have hs := hsub k (by simp [hbl])
      rw [hml] at hs
      simp at hs

theorem fieldsView_httpFields (cfg : HTTPCheckConfig) :
    fieldsView (httpFields cfg) =
      [("method", .jstr cfg.method),
       ("headers", .jobj (fieldsView (headerFields cfg.headers))),
       ("body", .jstr cfg.body),
       ("expected_status", .jnum (marshalInt cfg.expectedStatus)),
       ("expected_content", .jstr cfg.expectedContent),
       ("follow_redirects", .jbool cfg.followRedirects),
       ("verify_ssl", .jbool cfg.verifySSL)] := rfl

theorem fieldsView_pingFields (cfg : PingCheckConfig) :
    fieldsView (pingFields cfg) =
      [("count", .jnum (marshalInt cfg.count)),
       ("interval", .jnum (marshalInt cfg.interval)),
       ("size", .jnum (marshalInt cfg.size))] := rfl

theorem decodeHeadersField_jstr (m : Headers) :
    ∀ b : Headers, decodeHeadersField b (fieldsView (headerFields m)) =
      .ok (hdrInsertAll b m) := by
  induction m with
  | nil => intro b; rfl
  | cons kv t ih =>
    intro b
    obtain ⟨k, v⟩ := kv
    show decodeHeadersField (hdrInsert b k v) (fieldsView (headerFields t)) = _
    rw [ih]
    rfl

theorem decodeHeadersField_inv :
    ∀ (fs : List (String × JValue)) (base m : Headers),
    decodeHeadersField base fs = .ok m →
    (hdrSortedKeys base → hdrSortedKeys m) ∧ hdrKeySub base m := by
  intro fs
  induction fs with
  | nil =>
    intro base m h
    simp only [decodeHeadersField, Except.ok.injEq] at h
    subst h
    exact ⟨id, fun k hk => hk⟩
  | cons kv t ih =>
    intro base m h
    obtain ⟨k, jv⟩ := kv
    cases jv with
    | jstr s =>
      obtain ⟨hs, hsub⟩ := ih (hdrInsert base k s) m h
      exact ⟨fun hb => hs (hdrSortedKeys_insert _ _ _ hb),
        hdrKeySub_trans (hdrKeySub_insert base k s) hsub⟩
    | jnull =>
      obtain ⟨hs, hsub⟩ := ih (hdrInsert base k "") m h
      exact ⟨fun hb => hs (hdrSortedKeys_insert _ _ _ hb),
        hdrKeySub_trans (hdrKeySub_insert base k "") hsub⟩
    | jbool b => simp [decodeHeadersField] at h
    | jnum l => simp [decodeHeadersField] at h
    | jarr l => simp [decodeHeadersField] at h
    | jobj l => simp [decodeHeadersField] at h

theorem decodeHTTPField_method (c : HTTPCheckConfig) (s : String) :
    decodeHTTPField c "method" (.jstr s) = .ok { c with method := s } := rfl

theorem decodeHTTPField_headers (c : HTTPCheckConfig)
    (fs : List (String × JValue)) :
    decodeHTTPField c "headers" (.jobj fs) =
      (decodeHeadersField c.headers fs).map
        fun m => { c with headers := m } := rfl

theorem decodeHTTPField_body (c : HTTPCheckConfig) (s : String) :
    decodeHTTPField c "body" (.jstr s) = .ok { c with body := s } := rfl

theorem decodeHTTPField_status (c : HTTPCheckConfig) (lit : String) :
    decodeHTTPField c "expected_status" (.jnum lit) =
      match jnumToInt lit with
      | some n => .ok { c with expectedStatus := n }
      | none =>
        .error "cannot unmarshal number into field expected_status of type int"
      := rfl

theorem decodeHTTPField_content (c : HTTPCheckConfig) (s : String) :
    decodeHTTPField c "expected_content" (.jstr s) =
      .ok { c with expectedContent := s } := rfl

theorem decodeHTTPField_follow (c : HTTPCheckConfig) (b : Bool) :
    decodeHTTPField c "follow_redirects" (.jbool b) =
      .ok { c with followRedirects := b } := rfl

theorem decodeHTTPField_verify (c : HTTPCheckConfig) (b : Bool) :
    decodeHTTPField c "verify_ssl" (.jbool b) =
      .ok { c with verifySSL := b } := rfl

theorem decodePingField_count (c : PingCheckConfig) (lit : String) :
    decodePingField c "count" (.jnum lit) =
      match jnumToInt lit with
      | some n => .ok { c with count := n }
      | none => .error "cannot unmarshal number into field count of type int"
      := rfl

theorem decodePingField_interval (c : PingCheckConfig) (lit : String) :
    decodePingField c "interval" (.jnum lit) =
      match jnumToInt lit with
      | some n => .ok { c with interval := n }
      | none =>
        .error "cannot unmarshal number into field interval of type int"
      := rfl

theorem decodePingField_size (c : PingCheckConfig) (lit : String) :
    decodePingField c "size" (.jnum lit) =
      match jnumToInt lit with
      | some n => .ok { c with size := n }
      | none => .error "cannot unmarshal number into field size of type int"
      := rfl

theorem decodeHTTPFields_view (b cfg : HTTPCheckConfig)
    (hst : jnumToInt (marshalInt cfg.expectedStatus) =
      some cfg.expectedStatus) :
    decodeHTTPFields b (fieldsView (httpFields cfg)) =
      .ok { method := cfg.method,
            headers := hdrInsertAll b.headers cfg.headers,
            body := cfg.body, expectedStatus := cfg.expectedStatus,
            expectedContent := cfg.expectedContent,
            followRedirects := cfg.followRedirects,
            verifySSL := cfg.verifySSL } := by
  rw [fieldsView_httpFields]
  simp only [decodeHTTPFields, bind, Except.bind, decodeHTTPField_method,
    decodeHTTPField_headers, decodeHTTPField_body, decodeHTTPField_status,
    decodeHTTPField_content, decodeHTTPField_follow, decodeHTTPField_verify,
    decodeHeadersField_jstr, Except.map, hst]

theorem decodePingFields_view (b cfg : PingCheckConfig)
    (h1 : jnumToInt (marshalInt cfg.count) = some cfg.count)
    (h2 : jnumToInt (marshalInt cfg.interval) = some cfg.interval)
    (h3 : jnumToInt (marshalInt cfg.size) = some cfg.size) :
    decodePingFields b (fieldsView (pingFields cfg)) = .ok cfg := by
  rw [fieldsView_pingFields]
  simp only [decodePingFields, bind, Except.bind, decodePingField_count,
    decodePingField_interval, decodePingField_size, h1, h2, h3]

theorem jsonUnmarshalHTTP_marshal (b cfg : HTTPCheckConfig)
    (hst : 0 ≤ cfg.expectedStatus) :
    jsonUnmarshalHTTP (marshalHTTPCheckConfig cfg) b =
      .ok { method := cfg.method,
            headers := hdrInsertAll b.headers cfg.headers,
            body := cfg.body, expectedStatus := cfg.expectedStatus,
            expectedContent := cfg.expectedContent,
            followRedirects := cfg.followRedirects,
            verifySSL := cfg.verifySSL } := by
  unfold jsonUnmarshalHTTP
  rw [jsonUnmarshalValue_marshalHTTP cfg hst]
  exact decodeHTTPFields_view b cfg (jnumToInt_marshalInt _ hst)

theorem jsonUnmarshalPing_marshal (b cfg : PingCheckConfig)
    (h1 : 0 ≤ cfg.count) (h2 : 0 ≤ cfg.interval) (h3 : 0 ≤ cfg.size) :
    jsonUnmarshalPing (marshalPingCheckConfig cfg) b = .ok cfg := by
  unfold jsonUnmarshalPing
  rw [jsonUnmarshalValue_marshalPing cfg h1 h2 h3]
  exact decodePingFields_view b cfg (jnumToInt_marshalInt _ h1)
    (jnumToInt_marshalInt _ h2) (jnumToInt_marshalInt _ h3)

theorem decodeHTTPField_headers_shape (c : HTTPCheckConfig) (k : String)
    (v : JValue) (c2 : HTTPCheckConfig) (h : decodeHTTPField c k v = .ok c2) :
    c2.headers = c.headers ∨
      ∃ fs, decodeHeadersField c.headers fs = .ok c2.headers := by
  unfold decodeHTTPField at h
  split_ifs at h
  case pos =>
    cases v <;> simp only [Except.ok.injEq, reduceCtorEq] at h <;>
      try exact absurd h (fun hh => hh)
    · left; rw [← h]
    · left; rw [← h]
  case pos =>
    cases v with
    | jobj fs =>
      cases hm : decodeHeadersField c.headers fs with
      | error e => simp only [hm, Except.map, reduceCtorEq] at h
      | ok m =>
        simp only [hm, Except.map, Except.ok.injEq] at h
        right
        exact ⟨fs, by rw [hm, ← h]⟩
    | jnull => left; simp only [Except.ok.injEq] at h; rw [← h]
    | jbool b => simp at h
    | jnum l => simp at h
    | jstr s => simp at h
    | jarr l => simp at h
  case pos =>
    cases v <;> simp only [Except.ok.injEq, reduceCtorEq] at h <;>
      try exact absurd h (fun hh => hh)
    · left; rw [← h]
    · left; rw [← h]
  case pos =>
    cases v with
    | jnum lit =>
      cases hm : jnumToInt lit with
      | none => simp only [hm, reduceCtorEq] at h
      | some n =>
        simp only [hm, Except.ok.injEq] at h
        left; rw [← h]
    | jnull => left; simp only [Except.ok.injEq] at h; rw [← h]
    | jbool b => simp at h
    | jstr s => simp at h
    | jarr l => simp at h
    | jobj l => simp at h
  case pos =>
    cases v <;> simp only [Except.ok.injEq, reduceCtorEq] at h <;>
      try exact absurd h (fun hh => hh)
    · left; rw [← h]
    · left; rw [← h]
  case pos =>
    cases v <;> simp only [Except.ok.injEq, reduceCtorEq] at h <;>
      try exact absurd h (fun hh => hh)
    · left; rw [← h]
    · left; rw [← h]
  case pos =>
    cases v <;> simp only [Except.ok.injEq, reduceCtorEq] at h <;>
      try exact absurd h (fun hh => hh)
    · left; rw [← h]
    · left; rw [← h]
  case neg =>
    simp only [Except.ok.injEq] at h
    left; rw [← h]

theorem decodeHTTPFields_headers_inv :
    ∀ (fs : List (String × JValue)) (c c2 : HTTPCheckConfig),
    decodeHTTPFields c fs = .ok c2 →
    (hdrSortedKeys c.headers → hdrSortedKeys c2.headers) ∧
      hdrKeySub c.headers c2.headers := by
  intro fs
  induction fs with
  | nil =>
    intro c c2 h
    simp only [decodeHTTPFields, Except.ok.injEq] at h
    subst h
    exact ⟨id, fun k hk => hk⟩
  | cons kv t ih =>
    intro c c2 h
    obtain ⟨k, v⟩ := kv
    rw [show decodeHTTPFields c ((k, v) :: t) =
        Except.bind (decodeHTTPField c k v) (fun x => decodeHTTPFields x t)
      from rfl] at h
    cases hm : decodeHTTPField c k v with
    | error e => rw [hm] at h; simp [Except.bind] at h
    | ok c1 =>
      rw [hm] at h
      simp only [Except.bind] at h
      obtain ⟨hs2, hk2⟩ := ih c1 c2 h
      rcases decodeHTTPField_headers_shape c k v c1 hm with heq | ⟨fs2, hdec⟩
      · rw [heq] at hs2 hk2
        exact ⟨hs2, hk2⟩
      · obtain ⟨hs0, hk0⟩ := decodeHeadersField_inv fs2 c.headers c1.headers hdec
        exact ⟨fun hb => hs2 (hs0 hb), hdrKeySub_trans hk0 hk2⟩

theorem jsonUnmarshalHTTP_headers_inv (s : String) (c c2 : HTTPCheckConfig)
    (h : jsonUnmarshalHTTP s c = .ok c2) :
    (hdrSortedKeys c.headers → hdrSortedKeys c2.headers) ∧
      hdrKeySub c.headers c2.headers := by
  unfold jsonUnmarshalHTTP at h
  cases hj : jsonUnmarshalValue s with
  | none => rw [hj] at h; simp at h
  | some v =>
    rw [hj] at h
    cases v with
    | jnull =>
      simp only [Except.ok.injEq] at h
      subst h
      exact ⟨id, fun k hk => hk⟩
    | jobj fields => exact decodeHTTPFields_headers_inv fields c c2 h
    | jbool b => simp at h
    | jnum l => simp at h
    | jstr s2 => simp at h
    | jarr l => simp at h

theorem applyHTTPDefaults_sorted (d : Option HTTPCheckConfig) :
    hdrSortedKeys (applyHTTPDefaults httpConfigBase d).headers := by
  cases d with
  | none => simp [applyHTTPDefaults, httpConfigBase, hdrSortedKeys]
  | some d0 =>
    simp only [applyHTTPDefaults]
    split_ifs <;>
      exact hdrInsertAll_sorted _ _ (by simp [httpConfigBase, hdrSortedKeys])

theorem validMethods_upper (m : String) (h : validMethods.contains m = true) :
    asciiToUpper m = m := by
  have hm : m ∈ validMethods := by simpa using h
  simp only [validMethods, List.mem_cons, List.not_mem_nil, or_false] at hm
  rcases hm with rfl | rfl | rfl | rfl | rfl | rfl | rfl <;> decide

theorem marshalHTTP_ne_skip (cfg : HTTPCheckConfig) :
    marshalHTTPCheckConfig cfg ≠ "" ∧
      marshalHTTPCheckConfig cfg ≠ "\x7b\x7d" := by
  have hne : fieldsRender (httpFields cfg) ≠ [] := by
    rw [show fieldsRender (httpFields cfg) =
        (marshalString "method").toList ++ ':' ::
          ((marshalString cfg.method).toList ++ ',' ::
            fieldsRender (List.tail (httpFields cfg))) from rfl]
    simp
  constructor
  · intro hh
    have := congrArg String.toList hh
    rw [marshalHTTPCheckConfig_toList] at this
    simp at this
  · intro hh
    have := congrArg String.toList hh
    rw [marshalHTTPCheckConfig_toList] at this
    have h2 : ("\x7b\x7d" : String).toList = ['{', '}'] := rfl
    rw [h2] at this
    simp only [List.cons.injEq] at this
    have h3 := congrArg List.length this.2
    simp only [List.length_append, List.length_cons, List.length_nil,
      List.length_singleton] at h3
    exact hne (List.length_eq_zero.mp (by omega))

theorem marshalPing_ne_skip (cfg : PingCheckConfig) :
    marshalPingCheckConfig cfg ≠ "" ∧
      marshalPingCheckConfig cfg ≠ "\x7b\x7d" := by
  have hne : fieldsRender (pingFields cfg) ≠ [] := by
    rw [show fieldsRender (pingFields cfg) =
        (marshalString "count").toList ++ ':' ::
          ((marshalInt cfg.count).toList ++ ',' ::
            fieldsRender (List.tail (pingFields cfg))) from rfl]
    simp
  constructor
  · intro hh
    have := congrArg String.toList hh
    rw [marshalPingCheckConfig_toList] at this
    simp at this
  · intro hh
    have := congrArg String.toList hh
    rw [marshalPingCheckConfig_toList] at this
    have h2 : ("\x7b\x7d" : String).toList = ['{', '}'] := rfl
    rw [h2] at this
    simp only [List.cons.injEq] at this
    have h3 := congrArg List.length this.2
    simp only [List.length_append, List.length_cons, List.length_nil,
      List.length_singleton] at h3
    exact hne (List.length_eq_zero.mp (by omega))

theorem validateHTTP_ok_inv (C : String) (d : Option HTTPCheckConfig)
    (V : String) (h : ValidateHTTPCheckConfig C d = .ok V) :
    ∃ cfg : HTTPCheckConfig,
      V = marshalHTTPCheckConfig cfg ∧
      validMethods.contains cfg.method = true ∧
      asciiToUpper cfg.method = cfg.method ∧
      ¬(cfg.expectedStatus < 100) ∧ ¬(cfg.expectedStatus > 599) ∧
      headersCheck cfg.headers = .ok () ∧
      ¬(goLen cfg.body > 10 * 1024 * 1024) ∧
      ¬(goLen cfg.expectedContent > 1000) ∧
      hdrSortedKeys cfg.headers ∧
      hdrKeySub (applyHTTPDefaults httpConfigBase d).headers cfg.headers := by
  have hbase : hdrSortedKeys (applyHTTPDefaults httpConfigBase d).headers :=
    applyHTTPDefaults_sorted d
  have tail : ∀ cfg0 : HTTPCheckConfig,
      hdrSortedKeys cfg0.headers →
      hdrKeySub (applyHTTPDefaults httpConfigBase d).headers cfg0.headers →
      (if validMethods.contains (asciiToUpper cfg0.method) = false then
        Except.error ("invalid HTTP method: " ++ asciiToUpper cfg0.method)
      else
        let cfg : HTTPCheckConfig :=
          { method := asciiToUpper cfg0.method, headers := cfg0.headers,
            body := cfg0.body, expectedStatus := cfg0.expectedStatus,
            expectedContent := cfg0.expectedContent,
            followRedirects := cfg0.followRedirects,
            verifySSL := cfg0.verifySSL }
        if (cfg.expectedStatus < 100 || cfg.expectedStatus > 599 : Bool) = true
        then Except.error "invalid expected status code (must be between 100-599)"
        else
          match headersCheck cfg.headers with
          | Except.error e => Except.error e
          | Except.ok () =>
            if goLen cfg.body > 10 * 1024 * 1024 then
              Except.error "request body too large (max 10MB)"
            else if goLen cfg.expectedContent > 1000 then
              Except.error "expected content too long (max 1000 chars)"
            else Except.ok (marshalHTTPCheckConfig cfg)) = .ok V →
      ∃ cfg : HTTPCheckConfig,
        V = marshalHTTPCheckConfig cfg ∧
        validMethods.contains cfg.method = true ∧
        asciiToUpper cfg.method = cfg.method ∧
        ¬(cfg.expectedStatus < 100) ∧ ¬(cfg.expectedStatus > 599) ∧
        headersCheck cfg.headers = .ok () ∧
        ¬(goLen cfg.body > 10 * 1024 * 1024) ∧
        ¬(goLen cfg.expectedContent > 1000) ∧
        hdrSortedKeys cfg.headers ∧
        hdrKeySub (applyHTTPDefaults httpConfigBase d).headers cfg.headers := by
    intro cfg0 hsort hsub hh
    simp only [] at hh
    split_ifs at hh with hm hst hbody hcontent
    · split at hh
      next e hhc => simp at hh
      next hhc => simp at hh
    · split at hh
      next e hhc => simp at hh
      next hhc => simp at hh
    · split at hh
      next e hhc => simp at hh
      next hhc =>
        simp only [Except.ok.injEq] at hh
        have hm' : validMethods.contains (asciiToUpper cfg0.method) = true := by
          simpa using hm
        have hup := validMethods_upper _ hm'
        simp only [Bool.or_eq_true, decide_eq_true_eq, not_or] at hst
        exact ⟨_, hh.symm, hm', hup, hst.1, hst.2, hhc, hbody, hcontent,
          hsort, hsub⟩
  unfold ValidateHTTPCheckConfig at h
  split at h
  case isTrue hC =>
    simp only [] at h
    split at h
    next c hj => exact absurd h (by simp)
    next cfg0 hj =>
      have hok : jsonUnmarshalHTTP C (applyHTTPDefaults httpConfigBase d) =
          .ok cfg0 := by
        cases hj2 : jsonUnmarshalHTTP C (applyHTTPDefaults httpConfigBase d) with
        | ok c2 =>
          rw [hj2] at hj
          simp only [Except.ok.injEq] at hj
          rw [hj]
        | error e2 =>
          rw [hj2] at hj
          simp at hj
      obtain ⟨hs, hk⟩ := jsonUnmarshalHTTP_headers_inv _ _ _ hok
      exact tail cfg0 (hs hbase) hk h
  case isFalse hC =>
    simp only [] at h
    exact tail (applyHTTPDefaults httpConfigBase d) hbase (fun k hk => hk) h

theorem validatePing_ok_inv (C : String) (d : Option PingCheckConfig)
    (V : String) (h : ValidatePingCheckConfig C d = .ok V) :
    ∃ cfg : PingCheckConfig,
      V = marshalPingCheckConfig cfg ∧
      ¬(cfg.count ≤ 0) ∧ ¬(cfg.count > 10) ∧
      ¬(cfg.interval < 100) ∧ ¬(cfg.interval > 10000) ∧
      ¬(cfg.size < 8) ∧ ¬(cfg.size > 1472) := by
  have tail : ∀ cfg : PingCheckConfig,
      (if (cfg.count ≤ 0 || cfg.count > 10 : Bool) = true then
        Except.error "invalid count (must be between 1-10)"
      else if (cfg.interval < 100 || cfg.interval > 10000 : Bool) = true then
        Except.error "invalid interval (must be between 100-10000)"
      else if (cfg.size < 8 || cfg.size > 1472 : Bool) = true then
        Except.error "invalid packet size (must be between 8-1472)"
      else .ok (marshalPingCheckConfig cfg)) = .ok V →
      ∃ cfg' : PingCheckConfig,
        V = marshalPingCheckConfig cfg' ∧
        ¬(cfg'.count ≤ 0) ∧ ¬(cfg'.count > 10) ∧
        ¬(cfg'.interval < 100) ∧ ¬(cfg'.interval > 10000) ∧
        ¬(cfg'.size < 8) ∧ ¬(cfg'.size > 1472) := by
    intro cfg hh
    split_ifs at hh with h1 h2 h3
    simp only [Except.ok.injEq] at hh
    simp only [Bool.or_eq_true, decide_eq_true_eq, not_or] at h1 h2 h3
    exact ⟨cfg, hh.symm, h1.1, h1.2, h2.1, h2.2, h3.1, h3.2⟩
  unfold ValidatePingCheckConfig at h
  split at h
  case isTrue hC =>
    simp only [] at h
    split at h
    next c hj => exact absurd h (by simp)
    next cfg0 hj => exact tail cfg0 h
  case isFalse hC =>
    simp only [] at h
    exact tail _ h

theorem validatePing_fixed (d : Option PingCheckConfig) (cfg : PingCheckConfig)
    (h1 : ¬(cfg.count ≤ 0)) (h2 : ¬(cfg.count > 10))
    (h3 : ¬(cfg.interval < 100)) (h4 : ¬(cfg.interval > 10000))
    (h5 : ¬(cfg.size < 8)) (h6 : ¬(cfg.size > 1472)) :
    ValidatePingCheckConfig (marshalPingCheckConfig cfg) d =
      .ok (marshalPingCheckConfig cfg) := by
  have hne := marshalPing_ne_skip cfg
  unfold ValidatePingCheckConfig
  simp only []
  rw [if_pos (show (decide (marshalPingCheckConfig cfg ≠ "") &&
      decide (marshalPingCheckConfig cfg ≠ "\x7b\x7d")) = true from by
    simp [hne.1, hne.2])]
  rw [jsonUnmarshalPing_marshal _ cfg (by omega) (by omega) (by omega)]
  simp only []
  rw [if_neg (show ¬((cfg.count ≤ 0 || cfg.count > 10 : Bool) = true) from by
      simp only [Bool.or_eq_true, decide_eq_true_eq, not_or]
      exact ⟨h1, h2⟩),
    if_neg (show ¬((cfg.interval < 100 || cfg.interval > 10000 : Bool) = true)
      from by
      simp only [Bool.or_eq_true, decide_eq_true_eq, not_or]
      exact ⟨h3, h4⟩),
    if_neg (show ¬((cfg.size < 8 || cfg.size > 1472 : Bool) = true) from by
      simp only [Bool.or_eq_true, decide_eq_true_eq, not_or]
      exact ⟨h5, h6⟩)]

theorem validateHTTP_fixed (d : Option HTTPCheckConfig) (cfg : HTTPCheckConfig)
    (hm : validMethods.contains cfg.method = true)
    (hup : asciiToUpper cfg.method = cfg.method)
    (hs1 : ¬(cfg.expectedStatus < 100)) (hs2 : ¬(cfg.expectedStatus > 599))
    (hhc : headersCheck cfg.headers = .ok ())
    (hb : ¬(goLen cfg.body > 10 * 1024 * 1024))
    (hc : ¬(goLen cfg.expectedContent > 1000))
    (hsort : hdrSortedKeys cfg.headers)
    (hsub : hdrKeySub (applyHTTPDefaults httpConfigBase d).headers cfg.headers) :
    ValidateHTTPCheckConfig (marshalHTTPCheckConfig cfg) d =
      .ok (marshalHTTPCheckConfig cfg) := by
  have hne := marshalHTTP_ne_skip cfg
  have hst0 : 0 ≤ cfg.expectedStatus := by omega
  have hfold := hdrInsertAll_self
    (applyHTTPDefaults httpConfigBase d).headers cfg.headers hsort
    (applyHTTPDefaults_sorted d) hsub
  have heta :
      ({ method := cfg.method, headers := cfg.headers, body := cfg.body,
         expectedStatus := cfg.expectedStatus,
         expectedContent := cfg.expectedContent,
         followRedirects := cfg.followRedirects,
         verifySSL := cfg.verifySSL } : HTTPCheckConfig) = cfg := rfl
  unfold ValidateHTTPCheckConfig
  simp only []
  rw [if_pos (show (decide (marshalHTTPCheckConfig cfg ≠ "") &&
      decide (marshalHTTPCheckConfig cfg ≠ "\x7b\x7d")) = true from by
    simp [hne.1, hne.2])]
  rw [jsonUnmarshalHTTP_marshal _ cfg hst0]
  rw [hfold, heta]
  simp only []
  rw [hup]
  rw [if_neg (show ¬(validMethods.contains cfg.method = false) from by
    rw [hm]
    simp)]
  rw [if_neg (show ¬((cfg.expectedStatus < 100 ||
      cfg.expectedStatus > 599 : Bool) = true) from by
    simp only [Bool.or_eq_true, decide_eq_true_eq, not_or]
    exact ⟨hs1, hs2⟩)]
  rw [hhc]
  simp only []
  rw [if_neg hb, if_neg hc]

/-- **C7.** Config canonicalization is idempotent: whenever
`ValidateHTTPCheckConfig` (resp. `ValidatePingCheckConfig`) accepts a config
string `C`, producing the canonical string `V`, then validating `V` again
returns exactly `V` (`validate(validate(C)) = validate(C)`), and
unmarshalling `V` into a fresh zero-valued config struct and re-marshalling
that struct reproduces `V` byte for byte. -/
theorem config_canonicalization_idempotent :
    (∀ (C : String) (d : Option HTTPCheckConfig) (V : String),
        ValidateHTTPCheckConfig C d = .ok V →
        ValidateHTTPCheckConfig V d = .ok V ∧
        ∃ w, jsonUnmarshalHTTP V httpZeroConfig = .ok w ∧
          marshalHTTPCheckConfig w = V) ∧
    (∀ (C : String) (d : Option PingCheckConfig) (V : String),
        ValidatePingCheckConfig C d = .ok V →
        ValidatePingCheckConfig V d = .ok V ∧
        ∃ w, jsonUnmarshalPing V pingZeroConfig = .ok w ∧
          marshalPingCheckConfig w = V) := by
  constructor
  · intro C d V h
    obtain ⟨cfg, hV, hm, hup, hs1, hs2, hhc, hb, hc, hsort, hsub⟩ :=
      validateHTTP_ok_inv C d V h
    subst hV
    refine ⟨validateHTTP_fixed d cfg hm hup hs1 hs2 hhc hb hc hsort hsub,
      cfg, ?_, rfl⟩
    have hst0 : 0 ≤ cfg.expectedStatus := by omega
    rw [jsonUnmarshalHTTP_marshal httpZeroConfig cfg hst0]
    have hfold0 : hdrInsertAll httpZeroConfig.headers cfg.headers =
        cfg.headers :=
      hdrInsertAll_self _ _ hsort (by simp [hdrSortedKeys, httpZeroConfig])
        (fun k hk => by simp [httpZeroConfig, hdrLookup] at hk)
    rw [hfold0]
  · intro C d V h
    obtain ⟨cfg, hV, h1, h2, h3, h4, h5, h6⟩ := validatePing_ok_inv C d V h
    subst hV
    exact ⟨validatePing_fixed d cfg h1 h2 h3 h4 h5 h6,
      cfg, jsonUnmarshalPing_marshal pingZeroConfig cfg (by omega) (by omega)
        (by omega), rfl⟩

/-- Witness for C7: the empty HTTP and ping config strings are accepted and
canonicalized to the default configs' JSON; the theorem instantiated there
yields the idempotency and byte-equal re-serialization facts. -/
theorem config_canonicalization_idempotent_witness :
    (ValidateHTTPCheckConfig
        "\x7b\"method\":\"GET\",\"headers\":\x7b\x7d,\"body\":\"\",\"expected_status\":200,\"expected_content\":\"\",\"follow_redirects\":true,\"verify_ssl\":true\x7d"
        none =
      .ok "\x7b\"method\":\"GET\",\"headers\":\x7b\x7d,\"body\":\"\",\"expected_status\":200,\"expected_content\":\"\",\"follow_redirects\":true,\"verify_ssl\":true\x7d" ∧
      ∃ w, jsonUnmarshalHTTP
          "\x7b\"method\":\"GET\",\"headers\":\x7b\x7d,\"body\":\"\",\"expected_status\":200,\"expected_content\":\"\",\"follow_redirects\":true,\"verify_ssl\":true\x7d"
          httpZeroConfig = .ok w ∧
        marshalHTTPCheckConfig w =
          "\x7b\"method\":\"GET\",\"headers\":\x7b\x7d,\"body\":\"\",\"expected_status\":200,\"expected_content\":\"\",\"follow_redirects\":true,\"verify_ssl\":true\x7d") ∧
    (ValidatePingCheckConfig "\x7b\"count\":3,\"interval\":300,\"size\":56\x7d"
        none =
      .ok "\x7b\"count\":3,\"interval\":300,\"size\":56\x7d" ∧
      ∃ w, jsonUnmarshalPing "\x7b\"count\":3,\"interval\":300,\"size\":56\x7d"
          pingZeroConfig = .ok w ∧
        marshalPingCheckConfig w =
          "\x7b\"count\":3,\"interval\":300,\"size\":56\x7d") :=
  ⟨config_canonicalization_idempotent.1 "" none
      "\x7b\"method\":\"GET\",\"headers\":\x7b\x7d,\"body\":\"\",\"expected_status\":200,\"expected_content\":\"\",\"follow_redirects\":true,\"verify_ssl\":true\x7d"
      (by exact rfl),
   config_canonicalization_idempotent.2 "" none
      "\x7b\"count\":3,\"interval\":300,\"size\":56\x7d" (by exact rfl)⟩

end Dideban
